import Mathlib

/-!
Verification development for the checkpointed task-execution engine of the
giant-ai repository (src/agent/checkpoint.py, src/agent/agent.py,
src/agent/providers/base.py).

The embedding is shallow and executable:

* the project tree is an association list from top-level names to entries
  (a file's content, or a directory modelled as a blob of path/content
  pairs, since the source copies and replaces directories wholesale);
* git state is the worktree plus a HEAD tree and a stack of stashes
  (most recent first); `git stash push --include-untracked`,
  plain `git stash push`, `git stash list` substring matching and
  `git stash pop` are modelled per path (a pop applies the stash's
  changes relative to its base onto the current tree);
* Python string operations used by the source (`str.strip`,
  `str.split("\n")`, slicing, the `in` substring test) are re-implemented
  with Python's semantics over character lists so that concrete runs
  reduce in the kernel;
* subprocess exit statuses of the two git commands issued by
  `create_checkpoint` are passed in as booleans, since the source reads
  (or ignores) only the exit status; the external provider is a function
  mutating the worktree and returning the result record the source builds,
  and the claude CLI subprocess is additionally modelled as fallible
  (spawning may raise), since `ClaudeCodeProvider` wraps it in no
  try/except.

Wall-clock timestamps are elided: checkpoint ids are rendered from a
logical clock threaded through the agent state (the source derives ids
from `datetime.now()`, whose only relevant property is freshness).
-/

/-! ## Python string semantics -/

/-- Python `str.strip()` restricted to ASCII whitespace, over the
character list of a string. -/
def pyStrip (s : String) : String :=
  let ws : Char → Bool := fun c => c = ' ' || c = '\n' || c = '\t' || c = '\r'
  String.mk (((s.toList.dropWhile ws).reverse.dropWhile ws).reverse)

/-- Python `str.split("\n")`: split on every newline, never collapsing,
so the empty string yields `[""]` exactly as CPython does. -/
def pySplitNl (s : String) : List String :=
  let r := s.toList.foldl
    (fun (acc : List String × String) c =>
      if c = '\n' then (acc.1 ++ [acc.2], "") else (acc.1, acc.2.push c)) ([], "")
  r.1 ++ [r.2]

/-- Python slicing `s[:n]`. -/
def pyTake (s : String) (n : Nat) : String :=
  String.mk (s.toList.take n)

/-- Does the character list `l` start with `pat`? -/
def startsWithL : List Char → List Char → Bool
  | _, [] => true
  | [], _ :: _ => false
  | a :: as, b :: bs => a == b && startsWithL as bs

/-- Does `pat` occur as a contiguous run inside `l`? -/
def containsL : List Char → List Char → Bool
  | l, pat =>
    startsWithL l pat ||
      (match l with
       | [] => false
       | _ :: as => containsL as pat)

/-- Python's `needle in hay` substring test. -/
def pyContains (hay needle : String) : Bool :=
  containsL hay.toList needle.toList

/-! ## File-system model -/

/-- A top-level project entry: a file with its content, or a directory
modelled as an opaque blob of relative path/content pairs (the source
only ever copies or replaces directories wholesale via
`shutil.copytree`/`shutil.rmtree`). -/
inductive FsEntry where
  | file (content : String)
  | dir (tree : List (String × String))
deriving DecidableEq, Repr

/-- A project tree: association list from top-level names to entries. -/
abbrev FS := List (String × FsEntry)

/-- Look a name up in a tree (first binding wins). -/
def lookupFS (fs : FS) (n : String) : Option FsEntry :=
  (fs.find? (fun p => p.1 == n)).map (fun p => p.2)

/-- The names bound in a tree. -/
def fsKeys (fs : FS) : List String :=
  fs.map (fun p => p.1)

/-- Decidable extensional equality of two trees (`git`'s "no changes"
test): every name bound in either tree has the same entry in both. -/
def fsBeq (a b : FS) : Bool :=
  (fsKeys a ++ fsKeys b).all (fun n => lookupFS a n == lookupFS b n)

/-- Overwrite (or add) one binding, as `shutil.copy2` / rmtree-then-copytree
does for a destination path. -/
def setEntry : FS → String → FsEntry → FS
  | [], n, e => [(n, e)]
  | p :: rest, n, e =>
    if p.1 == n then (n, e) :: rest else p :: setEntry rest n e

/-! ## CheckpointManager (src/agent/checkpoint.py) -/

/-- The directory names `_backup_project_files` skips
(checkpoint.py line 165). -/
def excludedNames : List String := [".giant-ai", "node_modules", ".venv", "__pycache__"]

/-- Model of `CheckpointManager._backup_project_files`: copy every top-level item
whose name is not excluded into the backup directory. -/
def backupProjectFiles (project : FS) : FS :=
  project.filter (fun p => !(excludedNames.contains p.1))

/-- Model of `CheckpointManager._restore_project_files`: for every item of the
backup, overwrite the same-named project item (files via `copy2`,
directories via rmtree-then-copytree); project items absent from the
backup are left untouched. -/
def restoreProjectFiles (backup project : FS) : FS :=
  backup.foldl (fun proj p => setEntry proj p.1 p.2) project

/-- One persisted checkpoint metadata record (the `<id>.json` file);
`git_stash` is present exactly for stash-backed checkpoints and
`backup_path` exactly for copy-backed ones, as in the source. -/
structure CheckpointMeta where
  id : String
  description : String
  modified_files : List String
  git_stash : Option String
  backup_path : Option String
deriving DecidableEq, Repr

/-- State owned or observed by a `CheckpointManager`: whether the project
is a git repository, the git HEAD tree, the working tree, the stash stack
(most recent first, each entry a label and the snapshotted tree), the
persisted metadata records, and the copy-backend backup directories keyed
by checkpoint id. -/
structure CMState where
  isGitRepo : Bool
  gitHead : FS
  worktree : FS
  stashes : List (String × FS)
  checkpoints : List CheckpointMeta
  backups : List (String × FS)
deriving DecidableEq, Repr

/-- The stash message `f"AI Agent Checkpoint: {checkpoint_id}"`
(checkpoint.py line 53). -/
def stashMsgFor (id : String) : String :=
  "AI Agent Checkpoint: " ++ id

/-- Model of `git diff --name-only`: names of tracked paths whose worktree entry
differs from HEAD (modified or deleted tracked files; untracked additions
do not appear). -/
def gitDiffNames (head wt : FS) : List String :=
  (fsKeys head).filter (fun n => !(lookupFS wt n == lookupFS head n))

/-- Join lines with newlines. -/
def joinNl : List String → String
  | [] => ""
  | [x] => x
  | x :: rest => x ++ "\n" ++ joinNl rest

/-- The stdout of `git diff --name-only`: one name per line with a
trailing newline, empty when the tree is clean. -/
def gitDiffStdout (head wt : FS) : String :=
  match gitDiffNames head wt with
  | [] => ""
  | names => joinNl names ++ "\n"

/-- Model of `git stash push -m label --include-untracked`: when there is nothing
to stash the command is a no-op; otherwise the whole worktree (tracked and
untracked) is snapshotted under `label` and the worktree resets to HEAD.
`ok` is the command's exit status (false models a failing stash command,
whose status the source never reads); a failed command changes nothing. -/
def stashPushAll (st : CMState) (label : String) (ok : Bool) : CMState :=
  if fsBeq st.worktree st.gitHead then st
  else if ok then
    { st with stashes := (label, st.worktree) :: st.stashes, worktree := st.gitHead }
  else st

/-- Tracked part of the worktree: what a plain `git stash push` snapshots. -/
def snapTracked (head wt : FS) : FS :=
  wt.filter (fun p => (lookupFS head p.1).isSome)

/-- Worktree after a plain `git stash push`: tracked paths revert to HEAD,
untracked files are kept. -/
def resetTracked (head wt : FS) : FS :=
  head ++ wt.filter (fun p => (lookupFS head p.1).isNone)

/-- Does a plain `git stash push` have anything to stash? -/
def trackedChanged (head wt : FS) : Bool :=
  !(gitDiffNames head wt).isEmpty

/-- Plain `git stash push -m label` (no `--include-untracked`), used by
`restore_checkpoint` for its temporary stash (checkpoint.py lines 87-90). -/
def stashPushPlain (st : CMState) (label : String) : CMState :=
  if trackedChanged st.gitHead st.worktree then
    { st with
        stashes := (label, snapTracked st.gitHead st.worktree) :: st.stashes,
        worktree := resetTracked st.gitHead st.worktree }
  else st

/-- Apply a stash (snapshotted against `base`) onto `cur`, per path:
paths the stash changed take the stash's value, all others keep `cur`'s. -/
def mergeFS (base snap cur : FS) : FS :=
  (fsKeys base ++ fsKeys snap ++ fsKeys cur).filterMap
    (fun n =>
      let v := if lookupFS snap n == lookupFS base n then lookupFS cur n else lookupFS snap n
      v.map (fun e => (n, e)))

/-- Model of `git stash pop` at index `i`: apply entry `i` and drop it from the stack. -/
def stashPop (st : CMState) (i : Nat) : CMState :=
  match st.stashes.get? i with
  | none => st
  | some entry =>
    { st with
        worktree := mergeFS st.gitHead entry.2 st.worktree,
        stashes := st.stashes.eraseIdx i }

/-- The source's stash search (checkpoint.py lines 100-106): first index
whose stash-list line contains the stored label as a substring (the line
is decoration plus the entry's label, and the stored
`AI Agent Checkpoint: ...` label can only occur inside the entry's own
label, so the test is taken on labels). -/
def firstMatchIdx : List (String × FS) → String → Option Nat
  | [], _ => none
  | e :: rest, label =>
    if pyContains e.1 label then some 0
    else (firstMatchIdx rest label).map (fun i => i + 1)

/-- Model of `CheckpointManager.create_checkpoint` (checkpoint.py lines 26-71).
`newId` is the timestamp-derived checkpoint id, `diffOk`/`stashOk` the
exit statuses of the `git diff` and `git stash push` subprocesses.  The
source never inspects the stash command's status: the metadata record is
persisted and the id returned on every path. -/
def createCheckpoint (st : CMState) (newId description : String)
    (diffOk stashOk : Bool) : CMState × String :=
  let base : CheckpointMeta :=
    { id := newId, description := description, modified_files := [],
      git_stash := none, backup_path := none }
  if st.isGitRepo then
    let meta :=
      if diffOk then
        { base with modified_files := pySplitNl (pyStrip (gitDiffStdout st.gitHead st.worktree)) }
      else base
    let st1 := stashPushAll st (stashMsgFor newId) stashOk
    let meta := { meta with git_stash := some (stashMsgFor newId) }
    ({ st1 with checkpoints := st1.checkpoints ++ [meta] }, newId)
  else
    let backup := backupProjectFiles st.worktree
    let meta := { base with backup_path := some newId }
    ({ st with
        backups := (newId, backup) :: st.backups,
        checkpoints := st.checkpoints ++ [meta] }, newId)

/-- Model of `CheckpointManager.restore_checkpoint` (checkpoint.py lines 73-114).
Returns the new state and the boolean result: `false` only when no
metadata record exists; every other path returns `true`, whether or not a
stash entry was found or the backup directory still exists.  (The final
catch-all arm, a record with neither `git_stash` nor `backup_path`, is
unreachable for records written by `create_checkpoint`; the source would
raise a KeyError there.) -/
def restoreCheckpoint (st : CMState) (cid : String) : CMState × Bool :=
  match st.checkpoints.find? (fun m => m.id == cid) with
  | none => (st, false)
  | some meta =>
    match meta.git_stash with
    | some label =>
      let st1 := stashPushPlain st "Temp stash before restore"
      let st2 :=
        match firstMatchIdx st1.stashes label with
        | some i => stashPop st1 i
        | none => st1
      (st2, true)
    | none =>
      match meta.backup_path with
      | some bid =>
        match st.backups.find? (fun b => b.1 == bid) with
        | some b => ({ st with worktree := restoreProjectFiles b.2 st.worktree }, true)
        | none => (st, true)
      | none => (st, true)

/-- One element of `list_checkpoints`' result (checkpoint.py lines
123-130); `modified_files` is the `len(...)` of the stored list.  The
wall-clock `timestamp` is rendered from the id (both are renderings of
the same `datetime.now()` instant in the source). -/
structure CheckpointSummary where
  id : String
  timestamp : String
  description : String
  modified_files : Nat
deriving DecidableEq, Repr

/-- Summary of one metadata record. -/
def summarize (m : CheckpointMeta) : CheckpointSummary :=
  { id := m.id, timestamp := m.id, description := m.description,
    modified_files := m.modified_files.length }

/-- Stable descending insertion by timestamp (Python
`sorted(key=timestamp, reverse=True)` keeps the original order of equal
keys; a new element goes after existing equal keys). -/
def insertDesc (x : CheckpointSummary) : List CheckpointSummary → List CheckpointSummary
  | [] => [x]
  | y :: rest =>
    if x.timestamp > y.timestamp then x :: y :: rest
    else y :: insertDesc x rest

/-- Sort summaries by timestamp, newest first. -/
def sortDesc : List CheckpointSummary → List CheckpointSummary
  | [] => []
  | x :: rest => insertDesc x (sortDesc rest)

/-- Model of `CheckpointManager.list_checkpoints` (checkpoint.py lines 116-132). -/
def listCheckpoints (st : CMState) : List CheckpointSummary :=
  sortDesc (st.checkpoints.map summarize)

/-! ## AgentMode (src/agent/agent.py) and the provider gateway
(src/agent/providers/base.py) -/

/-- The result dictionary every provider returns
(base.py lines 57-62 and 129-134). -/
structure ProviderResult where
  success : Bool
  output : String
  error : String
  provider : String
deriving DecidableEq, Repr

/-- The fields of the `task_context` bag the provider contract consumes
(agent.py lines 45-52; the project context and wall-clock timestamp are
elided as inert strings). -/
structure TaskContext where
  task : String
  checkpoint_id : Option String
  auto_accept : Bool
  continue_session : Bool
deriving DecidableEq, Repr

/-- The `options` dictionary of `execute_task`/`batch_execute`; field
defaults are the `options.get(key, default)` defaults of the source. -/
structure Options where
  checkpoint : Bool := true
  checkpoint_after : Bool := false
  auto_accept : Bool := false
  continue_session : Bool := false
  auto_restore_on_failure : Bool := false
  continue_on_failure : Bool := false
deriving DecidableEq, Repr

/-- One entry of the session log (agent.py lines 219-226; the wall-clock
timestamp is elided). -/
structure SessionEntry where
  task : String
  provider : String
  success : Bool
  checkpoint_id : Option String
  output_length : Nat
deriving DecidableEq, Repr

/-- Observable events of one engine run, in order of occurrence. -/
inductive Event where
  | checkpointCreated (id : String)
  | providerInvoked (continueSession : Bool)
  | logged
  | restoreInvoked (id : String)
deriving DecidableEq, Repr

/-- State of an `AgentMode` instance: its checkpoint manager, the logical
clock from which checkpoint ids are rendered, and the session log. -/
structure AgentState where
  cm : CMState
  clock : Nat
  sessionLog : List SessionEntry
deriving DecidableEq, Repr

/-- A provider: given the prompt, the context bag and the current
worktree, it mutates the worktree and returns its result record (the
external collaborator of the spec; file changes are an opaque side
effect the engine only snapshots around). -/
abbrev ProviderFun := String → TaskContext → FS → FS × ProviderResult

/-- Render a checkpoint id from the logical clock. -/
def clockId (n : Nat) : String :=
  "cp" ++ toString n

/-- Model of `AgentMode.execute_task` (agent.py lines 34-78).  `diffOk`/`stashOk`
are the git subprocess statuses passed through to `create_checkpoint`.
Returns the new state, the provider result handed back to the caller, and
the event trace. -/
def executeTask (provider : ProviderFun) (diffOk stashOk : Bool)
    (st : AgentState) (task : String) (opts : Options) :
    AgentState × ProviderResult × List Event :=
  let pre :=
    if opts.checkpoint then
      let nid := clockId st.clock
      let r := createCheckpoint st.cm nid ("Before: " ++ pyTake task 50) diffOk stashOk
      (r.1, st.clock + 1, some r.2, [Event.checkpointCreated r.2])
    else (st.cm, st.clock, (none : Option String), ([] : List Event))
  let cm1 := pre.1
  let clock1 := pre.2.1
  let cid := pre.2.2.1
  let ev1 := pre.2.2.2
  let ctx : TaskContext :=
    { task := task, checkpoint_id := cid,
      auto_accept := opts.auto_accept, continue_session := opts.continue_session }
  let pr := provider task ctx cm1.worktree
  let cm2 := { cm1 with worktree := pr.1 }
  let result := pr.2
  let entry : SessionEntry :=
    { task := task, provider := result.provider, success := result.success,
      checkpoint_id := cid, output_length := result.output.length }
  let log1 := st.sessionLog ++ [entry]
  let evs := ev1 ++ [Event.providerInvoked ctx.continue_session, Event.logged]
  if result.success then
    if opts.checkpoint_after then
      let nid := clockId clock1
      let r := createCheckpoint cm2 nid ("After: " ++ pyTake task 50) diffOk stashOk
      ({ cm := r.1, clock := clock1 + 1, sessionLog := log1 }, result,
        evs ++ [Event.checkpointCreated r.2])
    else
      ({ cm := cm2, clock := clock1, sessionLog := log1 }, result, evs)
  else
    match cid with
    | some c =>
      if opts.auto_restore_on_failure then
        let r := restoreCheckpoint cm2 c
        ({ cm := r.1, clock := clock1, sessionLog := log1 }, result,
          evs ++ [Event.restoreInvoked c])
      else
        ({ cm := cm2, clock := clock1, sessionLog := log1 }, result, evs)
    | none =>
      ({ cm := cm2, clock := clock1, sessionLog := log1 }, result, evs)

/-- The loop body of `AgentMode.batch_execute` (agent.py lines 92-107):
from the second task on, the copied options force `continue_session=True`
and `checkpoint=False`; the failing result is appended before the early
stop, which applies unless `continue_on_failure` is set. -/
def batchLoop (provider : ProviderFun) (diffOk stashOk : Bool)
    (opts : Options) : List String → Nat → AgentState →
    AgentState × List ProviderResult × List Event
  | [], _, st => (st, [], [])
  | task :: rest, i, st =>
    let topts :=
      if i > 0 then { opts with continue_session := true, checkpoint := false }
      else opts
    let r := executeTask provider diffOk stashOk st task topts
    if !r.2.1.success && !opts.continue_on_failure then
      (r.1, [r.2.1], r.2.2)
    else
      let rr := batchLoop provider diffOk stashOk opts rest (i + 1) r.1
      (rr.1, r.2.1 :: rr.2.1, r.2.2 ++ rr.2.2)

/-- Model of `AgentMode.batch_execute` (agent.py lines 80-109): one leading
checkpoint when checkpointing is enabled, then the indexed loop. -/
def batchExecute (provider : ProviderFun) (diffOk stashOk : Bool)
    (st : AgentState) (tasks : List String) (opts : Options) :
    AgentState × List ProviderResult × List Event :=
  let start :=
    if opts.checkpoint then
      let r := createCheckpoint st.cm (clockId st.clock) "Batch start" diffOk stashOk
      ({ st with cm := r.1, clock := st.clock + 1 }, [Event.checkpointCreated r.2])
    else (st, [])
  let r := batchLoop provider diffOk stashOk opts tasks 0 start.1
  (r.1, r.2.1, start.2 ++ r.2.2)

/-- A sequence of independent `execute_task` calls (task text and options
per call), as an operator would issue them. -/
def runTasks (provider : ProviderFun) (diffOk stashOk : Bool) :
    List (String × Options) → AgentState → AgentState
  | [], st => st
  | j :: rest, st =>
    runTasks provider diffOk stashOk rest (executeTask provider diffOk stashOk st j.1 j.2).1

/-- The command line `ClaudeCodeProvider.execute_agent_task` builds
(base.py lines 45-53); `supports_auto_accept` is constantly true. -/
def buildClaudeCmd (task : String) (ctx : TaskContext) : List String :=
  ["claude"]
    ++ (if ctx.auto_accept then ["--auto-accept"] else [])
    ++ (if ctx.continue_session then ["--continue"] else [])
    ++ ["--print", task]

/-- A Python exception escaping a call: `subprocess.run` raises
FileNotFoundError when the executable to spawn does not exist. -/
inductive PyExn where
  | fileNotFoundError (binary : String)
deriving DecidableEq, Repr

/-- Model of `subprocess.run` for the external claude CLI: either the
process spawns — mutating the worktree and yielding
(returncode, stdout, stderr) — or spawning itself raises
(FileNotFoundError when the `claude` binary is absent). -/
abbrev RunClaudeFn := List String → FS → Except PyExn (FS × (Int × String × String))

/-- Model of `ClaudeCodeProvider.execute_agent_task` (base.py lines
43-62).  The call to `subprocess.run` (base.py line 55) is NOT wrapped in
try/except — unlike the API providers in the same file — so a spawn
exception propagates out of the gateway.  When the process does spawn,
its outcome, whatever the exit status, is returned as a result record
with `success = (returncode == 0)` and stderr captured in `error`. -/
def executeAgentTaskClaude (runClaude : RunClaudeFn)
    (task : String) (ctx : TaskContext) (wt : FS) :
    Except PyExn (FS × ProviderResult) :=
  match runClaude (buildClaudeCmd task ctx) wt with
  | Except.error e => Except.error e
  | Except.ok r =>
    Except.ok (r.1,
      { success := r.2.1 == 0, output := r.2.2.1, error := r.2.2.2,
        provider := "claude-code" })

/-- A provider call that may raise an exception instead of returning a
result (`ClaudeCodeProvider` does not catch spawn failures). -/
abbrev ProviderExnFun := String → TaskContext → FS → Except PyExn (FS × ProviderResult)

/-- Model of `AgentMode.execute_task` (agent.py lines 34-78) against a
provider whose call may raise.  If the provider call at line 62 raises,
the exception propagates out of `execute_task`: `_log_session` (line 64)
and every later step never run.  The error value carries the state as it
stood at the raise — the pre-task checkpoint (if any) persists, the
session log is unchanged.  On a normal provider return the behavior is
exactly that of `executeTask`. -/
def executeTaskExn (provider : ProviderExnFun) (diffOk stashOk : Bool)
    (st : AgentState) (task : String) (opts : Options) :
    Except (PyExn × AgentState) (AgentState × ProviderResult × List Event) :=
  let pre :=
    if opts.checkpoint then
      let nid := clockId st.clock
      let r := createCheckpoint st.cm nid ("Before: " ++ pyTake task 50) diffOk stashOk
      (r.1, st.clock + 1, some r.2, [Event.checkpointCreated r.2])
    else (st.cm, st.clock, (none : Option String), ([] : List Event))
  let cm1 := pre.1
  let clock1 := pre.2.1
  let cid := pre.2.2.1
  let ev1 := pre.2.2.2
  let ctx : TaskContext :=
    { task := task, checkpoint_id := cid,
      auto_accept := opts.auto_accept, continue_session := opts.continue_session }
  match provider task ctx cm1.worktree with
  | Except.error e =>
    Except.error (e, { cm := cm1, clock := clock1, sessionLog := st.sessionLog })
  | Except.ok pr =>
    let cm2 := { cm1 with worktree := pr.1 }
    let result := pr.2
    let entry : SessionEntry :=
      { task := task, provider := result.provider, success := result.success,
        checkpoint_id := cid, output_length := result.output.length }
    let log1 := st.sessionLog ++ [entry]
    let evs := ev1 ++ [Event.providerInvoked ctx.continue_session, Event.logged]
    if result.success then
      if opts.checkpoint_after then
        let nid := clockId clock1
        let r := createCheckpoint cm2 nid ("After: " ++ pyTake task 50) diffOk stashOk
        Except.ok ({ cm := r.1, clock := clock1 + 1, sessionLog := log1 }, result,
          evs ++ [Event.checkpointCreated r.2])
      else
        Except.ok ({ cm := cm2, clock := clock1, sessionLog := log1 }, result, evs)
    else
      match cid with
      | some c =>
        if opts.auto_restore_on_failure then
          let r := restoreCheckpoint cm2 c
          Except.ok ({ cm := r.1, clock := clock1, sessionLog := log1 }, result,
            evs ++ [Event.restoreInvoked c])
        else
          Except.ok ({ cm := cm2, clock := clock1, sessionLog := log1 }, result, evs)
      | none =>
        Except.ok ({ cm := cm2, clock := clock1, sessionLog := log1 }, result, evs)

/-! ## Scenario definitions: trace instrumentation, sample states and
providers used by the concrete runs -/

/-- Is an event a checkpoint creation? -/
def isCpCreated : Event → Bool
  | Event.checkpointCreated _ => true
  | _ => false

/-- The `continueSession` flags of the provider invocations of a trace,
in order. -/
def provFlags (evs : List Event) : List Bool :=
  evs.filterMap (fun e => match e with | Event.providerInvoked b => some b | _ => none)

def createThenMutate (st : CMState) (nid desc : String) (diffOk : Bool) (mutf : FS → FS) : CMState :=
  let st1 := (createCheckpoint st nid desc diffOk true).1
  { st1 with worktree := mutf st1.worktree }

/-- A small non-git project state with one file and no checkpoints. -/
def sampleCopyState : CMState :=
  { isGitRepo := false, gitHead := [], worktree := [("a.txt", FsEntry.file "x")],
    stashes := [], checkpoints := [], backups := [] }

/-- A provider process that spawns and always exits 1 with an error
message. -/
def runClaudeFail : RunClaudeFn :=
  fun _ fs => Except.ok (fs, (1, "", "boom"))

/-- The subprocess model for an absent claude binary: spawning raises. -/
def runClaudeAbsent : RunClaudeFn :=
  fun _ _ => Except.error (PyExn.fileNotFoundError "claude")

/-- The gateway over the absent binary, as the executor would call it. -/
def claudeAbsentProvider : ProviderExnFun := fun task ctx fs =>
  executeAgentTaskClaude runClaudeAbsent task ctx fs

/-- A minimal provider context bag. -/
def sampleCtx : TaskContext :=
  { task := "t", checkpoint_id := none, auto_accept := false, continue_session := false }

/-- A clean git project state: worktree equal to HEAD. -/
def sampleGitCleanState : CMState :=
  { isGitRepo := true, gitHead := [("a.txt", FsEntry.file "h")],
    worktree := [("a.txt", FsEntry.file "h")], stashes := [], checkpoints := [], backups := [] }

/-- A dirty git project state: one tracked file modified. -/
def sampleGitDirtyState : CMState :=
  { isGitRepo := true, gitHead := [("a.txt", FsEntry.file "h")],
    worktree := [("a.txt", FsEntry.file "x")], stashes := [], checkpoints := [], backups := [] }

/-- A git state whose only checkpoint record references a stash that no
longer exists (zero stash entries match the stored label). -/
def sampleOrphanStashState : CMState :=
  { isGitRepo := true, gitHead := [("a.txt", FsEntry.file "h")],
    worktree := [("a.txt", FsEntry.file "h")], stashes := [],
    checkpoints := [{ id := "20250101_120000", description := "d", modified_files := [],
                      git_stash := some (stashMsgFor "20250101_120000"), backup_path := none }],
    backups := [] }

/-- A non-git state whose only checkpoint record references a backup
directory that no longer exists. -/
def sampleOrphanBackupState : CMState :=
  { isGitRepo := false, gitHead := [], worktree := [("a.txt", FsEntry.file "x")],
    stashes := [],
    checkpoints := [{ id := "20250101_130000", description := "d", modified_files := [],
                      git_stash := none, backup_path := some "20250101_130000" }],
    backups := [] }

/-- The state after creating a checkpoint in `sampleCopyState` and then
adding a new top-level file, as an agent run would. -/
def sampleCopyAfterAdd : CMState :=
  { (createCheckpoint sampleCopyState "20250101_120000" "" true true).1 with
    worktree := (createCheckpoint sampleCopyState "20250101_120000" "" true true).1.worktree
      ++ [("b.txt", FsEntry.file "y")] }

/-- A provider that adds a new top-level file and reports failure. -/
def addingFailProvider : ProviderFun := fun _ _ fs =>
  (fs ++ [("b.txt", FsEntry.file "y")],
   { success := false, output := "", error := "fail", provider := "claude-code" })

/-- Agent state over the sample non-git project. -/
def sampleAgentState : AgentState :=
  { cm := sampleCopyState, clock := 0, sessionLog := [] }

/-- Options enabling the pre-task checkpoint and auto-restore. -/
def optsAutoRestore : Options :=
  { auto_restore_on_failure := true }

/-- A provider that changes nothing and reports success. -/
def okProvider : ProviderFun := fun _ _ fs =>
  (fs, { success := true, output := "", error := "", provider := "claude-code" })

/-- The default (empty) options dictionary. -/
def defaultOptions : Options := {}

/-- A provider that changes nothing, succeeds on every task except the
one named "fail-task". -/
def scriptedProvider : ProviderFun := fun task _ fs =>
  (fs, { success := task != "fail-task", output := "", error := "",
         provider := "claude-code" })

/-! ## Basic lookup lemmas -/

theorem lookupFS_nil (m : String) : lookupFS [] m = none := rfl

theorem lookupFS_cons (a : String × FsEntry) (fs : FS) (m : String) :
    lookupFS (a :: fs) m = if a.1 = m then some a.2 else lookupFS fs m := by
  by_cases h : a.1 = m
  · rw [lookupFS, List.find?_cons_of_pos]
    · simp [h]
    · simp [h]
  · rw [lookupFS, List.find?_cons_of_neg]
    · simp [h, lookupFS]
    · simp [h]

theorem lookupFS_eq_none_of_not_mem {fs : FS} {m : String} (h : m ∉ fsKeys fs) :
    lookupFS fs m = none := by
  induction fs with
  | nil => rfl
  | cons a rest ih =>
    rw [lookupFS_cons]
    have h1 : a.1 ≠ m := fun hc => h (by simp [fsKeys, hc])
    have h2 : m ∉ fsKeys rest := fun hc => h (by simp [fsKeys] at hc ⊢; exact Or.inr hc)
    simp [h1, ih h2]

theorem lookupFS_isSome_of_mem {fs : FS} {m : String} (h : m ∈ fsKeys fs) :
    (lookupFS fs m).isSome := by
  induction fs with
  | nil => simp [fsKeys] at h
  | cons a rest ih =>
    rw [lookupFS_cons]
    by_cases h1 : a.1 = m
    · simp [h1]
    · have : m ∈ fsKeys rest := by
        simp [fsKeys] at h ⊢
        rcases h with h | h
        · exact absurd h.symm h1
        · exact h
      simp [h1, ih this]

theorem lookup_setEntry (fs : FS) (n : String) (e : FsEntry) (m : String) :
    lookupFS (setEntry fs n e) m = if m = n then some e else lookupFS fs m := by
  induction fs with
  | nil =>
    simp only [setEntry, lookupFS_cons, lookupFS_nil]
    by_cases h : m = n
    · simp [h]
    · have h1 : ¬ n = m := fun hc => h hc.symm
      simp [h, h1]
  | cons a rest ih =>
    by_cases ha : a.1 = n
    · simp only [setEntry, ha, beq_self_eq_true, if_true]
      rw [lookupFS_cons, lookupFS_cons]
      by_cases h : m = n
      · simp [h]
      · have h1 : n ≠ m := fun hc => h hc.symm
        have h2 : a.1 ≠ m := fun hc => h (ha ▸ hc).symm
        simp [h, h1, h2]
    · have hb : (a.1 == n) = false := beq_eq_false_iff_ne.mpr ha
      simp only [setEntry, hb, Bool.false_eq_true, if_false]
      rw [lookupFS_cons, lookupFS_cons]
      by_cases hm : a.1 = m
      · have h : m ≠ n := fun hc => ha (hc ▸ hm)
        simp [hm, h]
      · simp [hm, ih]

theorem lookupFS_filter (pred : String → Bool) (fs : FS) (m : String) :
    lookupFS (fs.filter (fun p => pred p.1)) m =
      if pred m then lookupFS fs m else none := by
  induction fs with
  | nil => simp [lookupFS]
  | cons a rest ih =>
    by_cases hp : pred a.1
    · by_cases hm : a.1 = m
      · subst hm
        simp [List.filter_cons, hp, lookupFS_cons]
      · simp [List.filter_cons, hp, lookupFS_cons, hm, ih]
    · by_cases hm : a.1 = m
      · subst hm
        simp only [List.filter_cons]
        simp only [Bool.not_eq_true] at hp
        simp only [hp, Bool.false_eq_true, if_false]
        rw [ih]
        simp [hp]
      · simp only [List.filter_cons]
        simp only [Bool.not_eq_true] at hp
        simp only [hp, Bool.false_eq_true, if_false]
        rw [ih, lookupFS_cons]
        simp [hm]

/-! ## Lemmas about the copy backend -/

theorem restorePF_nil (wt : FS) : restoreProjectFiles [] wt = wt := rfl

theorem restorePF_cons (p : String × FsEntry) (rest : List (String × FsEntry)) (wt : FS) :
    restoreProjectFiles (p :: rest) wt = restoreProjectFiles rest (setEntry wt p.1 p.2) := rfl

theorem lookup_restorePF_not_mem (backup : FS) (m : String) (h : m ∉ fsKeys backup) :
    ∀ wt, lookupFS (restoreProjectFiles backup wt) m = lookupFS wt m := by
  induction backup with
  | nil => intro wt; rfl
  | cons p rest ih =>
    intro wt
    have h1 : p.1 ≠ m := fun hc => h (by simp [fsKeys, hc])
    have h2 : m ∉ fsKeys rest := fun hc => h (by simp [fsKeys] at hc ⊢; exact Or.inr hc)
    have h3 : m ≠ p.1 := fun hc => h1 hc.symm
    rw [restorePF_cons, ih h2, lookup_setEntry]
    simp [h3]

theorem lookup_restorePF_mem (backup : FS) (m : String) (e : FsEntry) :
    (fsKeys backup).Nodup → lookupFS backup m = some e →
    ∀ wt, lookupFS (restoreProjectFiles backup wt) m = some e := by
  induction backup with
  | nil => intro _ h; simp [lookupFS] at h
  | cons p rest ih =>
    intro hnd h wt
    rw [lookupFS_cons] at h
    have hnd1 : p.1 ∉ fsKeys rest := by
      simp [fsKeys] at hnd ⊢
      exact hnd.1
    have hnd2 : (fsKeys rest).Nodup := by
      simp [fsKeys] at hnd
      exact hnd.2
    by_cases hm : p.1 = m
    · subst hm
      simp at h
      subst h
      rw [restorePF_cons, lookup_restorePF_not_mem rest p.1 hnd1, lookup_setEntry]
      simp
    · simp [hm] at h
      rw [restorePF_cons]
      exact ih hnd2 h (setEntry wt p.1 p.2)

theorem fsKeys_filter (pred : String → Bool) (fs : FS) :
    fsKeys (fs.filter (fun p => pred p.1)) = (fsKeys fs).filter pred := by
  induction fs with
  | nil => rfl
  | cons a rest ih =>
    by_cases hp : pred a.1
    · simp [List.filter_cons, hp, fsKeys, List.map] at ih ⊢
      exact ih
    · simp only [Bool.not_eq_true] at hp
      simp [List.filter_cons, hp, fsKeys, List.map] at ih ⊢
      exact ih

theorem lookup_backupPF (wt : FS) (m : String) :
    lookupFS (backupProjectFiles wt) m =
      if excludedNames.contains m then none else lookupFS wt m := by
  rw [show backupProjectFiles wt
        = wt.filter (fun p => (fun n => !(excludedNames.contains n)) p.1) from rfl,
    lookupFS_filter (fun n => !(excludedNames.contains n)) wt m]
  by_cases h : excludedNames.contains m <;> simp [h]

theorem fsKeys_backupPF_nodup (wt : FS) (hnd : (fsKeys wt).Nodup) :
    (fsKeys (backupProjectFiles wt)).Nodup := by
  rw [show backupProjectFiles wt
        = wt.filter (fun p => (fun n => !(excludedNames.contains n)) p.1) from rfl,
    fsKeys_filter (fun n => !(excludedNames.contains n)) wt]
  exact hnd.filter _

/-- Restoring a fresh backup over an unchanged tree is the identity,
name by name. -/
theorem lookup_restorePF_self (wt : FS) (hnd : (fsKeys wt).Nodup) (m : String) :
    lookupFS (restoreProjectFiles (backupProjectFiles wt) wt) m = lookupFS wt m := by
  by_cases hm : m ∈ fsKeys (backupProjectFiles wt)
  · have hs := lookupFS_isSome_of_mem hm
    cases he : lookupFS (backupProjectFiles wt) m with
    | none => rw [he] at hs; simp at hs
    | some e =>
      rw [lookup_restorePF_mem _ _ _ (fsKeys_backupPF_nodup wt hnd) he wt]
      rw [lookup_backupPF] at he
      by_cases hex : excludedNames.contains m
      · rw [if_pos hex] at he
        cases he
      · rw [if_neg hex] at he
        exact he.symm
  · rw [lookup_restorePF_not_mem _ _ hm]

/-! ## Lemmas about the git model -/

theorem fsBeq_iff (a b : FS) :
    fsBeq a b = true ↔ ∀ n, lookupFS a n = lookupFS b n := by
  constructor
  · intro h n
    by_cases hn : n ∈ fsKeys a ++ fsKeys b
    · have := (List.all_eq_true.mp h) n hn
      simpa using this
    · rw [List.mem_append] at hn
      push_neg at hn
      rw [lookupFS_eq_none_of_not_mem hn.1, lookupFS_eq_none_of_not_mem hn.2]
  · intro h
    apply List.all_eq_true.mpr
    intro n _
    simp [h n]

theorem gitDiffNames_eq_nil_iff (head wt : FS) :
    gitDiffNames head wt = [] ↔ ∀ n ∈ fsKeys head, lookupFS wt n = lookupFS head n := by
  rw [gitDiffNames, List.filter_eq_nil_iff]
  constructor
  · intro h n hn
    have := h n hn
    simpa using this
  · intro h n hn
    simp [h n hn]

theorem gitDiffNames_self (head : FS) : gitDiffNames head head = [] := by
  rw [gitDiffNames_eq_nil_iff]
  intro n _
  rfl

theorem lookup_keyedFilterMap (g : String → Option FsEntry) (ks : List String) (m : String) :
    lookupFS (ks.filterMap (fun n => (g n).map (fun e => (n, e)))) m =
      if m ∈ ks then g m else none := by
  induction ks with
  | nil => simp [lookupFS]
  | cons n rest ih =>
    cases hg : g n with
    | none =>
      by_cases hm : m = n
      · subst hm
        simp only [List.filterMap_cons, hg, Option.map_none']
        rw [ih]
        by_cases hr : m ∈ rest
        · simp [hr, hg]
        · simp [hr, hg]
      · simp only [List.filterMap_cons, hg, Option.map_none']
        rw [ih]
        simp [hm]
    | some e =>
      by_cases hm : m = n
      · subst hm
        simp only [List.filterMap_cons, hg, Option.map_some']
        rw [lookupFS_cons]
        simp [hg]
      · simp only [List.filterMap_cons, hg, Option.map_some']
        rw [lookupFS_cons]
        simp only [show (n, e).1 = n from rfl]
        have : n ≠ m := fun hc => hm hc.symm
        rw [if_neg this, ih]
        simp [hm]

theorem lookup_mergeFS (base snap cur : FS) (m : String) :
    lookupFS (mergeFS base snap cur) m =
      if lookupFS snap m = lookupFS base m then lookupFS cur m else lookupFS snap m := by
  rw [show mergeFS base snap cur
        = (fsKeys base ++ fsKeys snap ++ fsKeys cur).filterMap
            (fun n => ((fun k =>
                if lookupFS snap k == lookupFS base k then lookupFS cur k
                else lookupFS snap k) n).map (fun e => (n, e))) from rfl,
    lookup_keyedFilterMap]
  by_cases hm : m ∈ fsKeys base ++ fsKeys snap ++ fsKeys cur
  · rw [if_pos hm]
    by_cases h : lookupFS snap m = lookupFS base m
    · simp [h]
    · simp [h, beq_eq_false_iff_ne.mpr h]
  · rw [if_neg hm]
    simp only [List.mem_append] at hm
    push_neg at hm
    rw [lookupFS_eq_none_of_not_mem hm.1.1, lookupFS_eq_none_of_not_mem hm.1.2,
      lookupFS_eq_none_of_not_mem hm.2]
    simp

theorem lookup_snapTracked (head wt : FS) (m : String) :
    lookupFS (snapTracked head wt) m =
      if (lookupFS head m).isSome then lookupFS wt m else none := by
  rw [show snapTracked head wt
        = wt.filter (fun p => (fun n => (lookupFS head n).isSome) p.1) from rfl,
    lookupFS_filter (fun n => (lookupFS head n).isSome) wt m]

theorem lookupFS_append (a b : FS) (m : String) :
    lookupFS (a ++ b) m = (lookupFS a m).or (lookupFS b m) := by
  rw [lookupFS, List.find?_append]
  cases h : a.find? (fun p => p.1 == m) with
  | none => simp [h, lookupFS]
  | some p => simp [h, lookupFS]

theorem lookup_resetTracked (head wt : FS) (m : String) :
    lookupFS (resetTracked head wt) m =
      if (lookupFS head m).isSome then lookupFS head m else lookupFS wt m := by
  rw [resetTracked, lookupFS_append,
    show wt.filter (fun p => (lookupFS head p.1).isNone)
      = wt.filter (fun p => (fun n => (lookupFS head n).isNone) p.1) from rfl,
    lookupFS_filter (fun n => (lookupFS head n).isNone) wt m]
  cases h : lookupFS head m with
  | none => simp
  | some e => simp

/-! ## Substring and stash-search lemmas -/

theorem startsWithL_refl (l : List Char) : startsWithL l l = true := by
  induction l with
  | nil => rfl
  | cons a as ih => simp [startsWithL, ih]

theorem containsL_self (l : List Char) : containsL l l = true := by
  cases l with
  | nil => rfl
  | cons a as =>
    rw [containsL]
    simp [startsWithL_refl]

/-- A label always contains itself (the stash pushed by `create_checkpoint`
is found by `restore_checkpoint`'s substring search). -/
theorem pyContains_self (s : String) : pyContains s s = true :=
  containsL_self s.toList

theorem containsL_not_head {l : List Char} {c : Char} (pat : List Char)
    (h : c ∉ l) : containsL l (c :: pat) = false := by
  induction l with
  | nil => rfl
  | cons a as ih =>
    have ha : a ≠ c := fun hc => h (by simp [hc])
    have hr : c ∉ as := fun hc => h (by simp [hc])
    rw [containsL]
    simp [startsWithL, ha, ih hr]

/-- The temporary stash label pushed by `restore_checkpoint` never
contains a checkpoint's stash message, whatever the checkpoint id: the
message starts with a capital letter absent from the temporary label. -/
theorem pyContains_temp_stashMsg (id : String) :
    pyContains "Temp stash before restore" (stashMsgFor id) = false := by
  rw [pyContains]
  have h1 : (stashMsgFor id).toList = 'A' :: ("I Agent Checkpoint: ".toList ++ id.toList) := by
    show ("AI Agent Checkpoint: " ++ id).data = 'A' :: ("I Agent Checkpoint: ".data ++ id.data)
    rw [String.data_append]
    rfl
  rw [h1]
  apply containsL_not_head
  decide

theorem firstMatchIdx_eq_none {l : List (String × FS)} {label : String}
    (h : ∀ e ∈ l, pyContains e.1 label = false) :
    firstMatchIdx l label = none := by
  induction l with
  | nil => rfl
  | cons e rest ih =>
    rw [firstMatchIdx]
    simp only [h e (by simp)]
    simp [ih (fun x hx => h x (by simp [hx]))]

/-! ## Metadata search lemmas -/

theorem find?_meta_append_fresh (l : List CheckpointMeta) (m : CheckpointMeta) (cid : String)
    (h : ∀ x ∈ l, x.id ≠ cid) (hm : m.id = cid) :
    (l ++ [m]).find? (fun x => x.id == cid) = some m := by
  rw [List.find?_append]
  have h1 : l.find? (fun x => x.id == cid) = none :=
    List.find?_eq_none.mpr (fun x hx => by simp [h x hx])
  rw [h1]
  simp [List.find?, hm]

/-! ## State-component lemmas for the stash operations -/

theorem stashPushAll_clean (st : CMState) (l : String) (ok : Bool)
    (h : fsBeq st.worktree st.gitHead = true) :
    stashPushAll st l ok = st := by
  rw [stashPushAll, if_pos h]

theorem stashPushAll_dirty (st : CMState) (l : String)
    (h : fsBeq st.worktree st.gitHead = false) :
    stashPushAll st l true =
      { st with stashes := (l, st.worktree) :: st.stashes, worktree := st.gitHead } := by
  rw [stashPushAll, if_neg (by simp [h]), if_pos rfl]

theorem stashPushAll_checkpoints (st : CMState) (l : String) (ok : Bool) :
    (stashPushAll st l ok).checkpoints = st.checkpoints := by
  rw [stashPushAll]
  split
  · rfl
  · split <;> rfl

theorem stashPushAll_gitHead (st : CMState) (l : String) (ok : Bool) :
    (stashPushAll st l ok).gitHead = st.gitHead := by
  rw [stashPushAll]
  split
  · rfl
  · split <;> rfl

theorem stashPushAll_isGitRepo (st : CMState) (l : String) (ok : Bool) :
    (stashPushAll st l ok).isGitRepo = st.isGitRepo := by
  rw [stashPushAll]
  split
  · rfl
  · split <;> rfl

theorem stashPushAll_backups (st : CMState) (l : String) (ok : Bool) :
    (stashPushAll st l ok).backups = st.backups := by
  rw [stashPushAll]
  split
  · rfl
  · split <;> rfl

theorem stashPushPlain_quiet (st : CMState) (l : String)
    (h : trackedChanged st.gitHead st.worktree = false) :
    stashPushPlain st l = st := by
  rw [stashPushPlain, if_neg (by simp [h])]

theorem stashPushPlain_active (st : CMState) (l : String)
    (h : trackedChanged st.gitHead st.worktree = true) :
    stashPushPlain st l =
      { st with
          stashes := (l, snapTracked st.gitHead st.worktree) :: st.stashes,
          worktree := resetTracked st.gitHead st.worktree } := by
  rw [stashPushPlain, if_pos h]

theorem stashPushPlain_gitHead (st : CMState) (l : String) :
    (stashPushPlain st l).gitHead = st.gitHead := by
  rw [stashPushPlain]
  split <;> rfl

theorem stashPushPlain_checkpoints (st : CMState) (l : String) :
    (stashPushPlain st l).checkpoints = st.checkpoints := by
  rw [stashPushPlain]
  split <;> rfl

/-! ## Structural lemmas for the task executor -/

theorem executeTask_log (provider : ProviderFun) (dOk sOk : Bool) (st : AgentState)
    (task : String) (opts : Options) :
    ∃ e : SessionEntry,
      (executeTask provider dOk sOk st task opts).1.sessionLog = st.sessionLog ++ [e] := by
  simp only [executeTask]
  repeat' split
  all_goals exact ⟨_, rfl⟩

theorem executeTask_log_length (provider : ProviderFun) (dOk sOk : Bool) (st : AgentState)
    (task : String) (opts : Options) :
    (executeTask provider dOk sOk st task opts).1.sessionLog.length
      = st.sessionLog.length + 1 := by
  obtain ⟨e, he⟩ := executeTask_log provider dOk sOk st task opts
  simp [he]

theorem executeTask_result (provider : ProviderFun) (dOk sOk : Bool) (st : AgentState)
    (task : String) (opts : Options) :
    ∃ ctx wt, (executeTask provider dOk sOk st task opts).2.1 = (provider task ctx wt).2 := by
  simp only [executeTask]
  repeat' split
  all_goals exact ⟨_, _, rfl⟩

theorem executeTask_provFlags (provider : ProviderFun) (dOk sOk : Bool) (st : AgentState)
    (task : String) (opts : Options) :
    provFlags (executeTask provider dOk sOk st task opts).2.2 = [opts.continue_session] := by
  simp only [executeTask]
  repeat' split
  all_goals simp [provFlags]

theorem executeTask_logged_mem (provider : ProviderFun) (dOk sOk : Bool) (st : AgentState)
    (task : String) (opts : Options) :
    Event.logged ∈ (executeTask provider dOk sOk st task opts).2.2 := by
  simp only [executeTask]
  repeat' split
  all_goals simp

theorem executeTask_cpCount (provider : ProviderFun) (dOk sOk : Bool) (st : AgentState)
    (task : String) (opts : Options) (hca : opts.checkpoint_after = false) :
    ((executeTask provider dOk sOk st task opts).2.2.countP isCpCreated)
      = if opts.checkpoint then 1 else 0 := by
  simp only [executeTask]
  repeat' split
  all_goals simp_all [isCpCreated]

/-! ## Sorting lemmas for list_checkpoints -/

theorem mem_insertDesc (x y : CheckpointSummary) (l : List CheckpointSummary) :
    y ∈ insertDesc x l ↔ y = x ∨ y ∈ l := by
  induction l with
  | nil => simp [insertDesc]
  | cons a rest ih =>
    rw [insertDesc]
    split
    · simp
    · simp [ih]
      tauto

theorem mem_sortDesc (y : CheckpointSummary) (l : List CheckpointSummary) :
    y ∈ sortDesc l ↔ y ∈ l := by
  induction l with
  | nil => simp [sortDesc]
  | cons a rest ih =>
    rw [sortDesc, mem_insertDesc]
    simp [ih]

/-! ## Claim C8 -/

/-- C8: for every checkpoint id with no persisted metadata record,
`restore_checkpoint` returns the NotFound outcome (`False`) and performs
no filesystem mutation at all: the whole state — worktree, stashes,
backups, records — is returned unchanged. -/
theorem C8_restore_unknown_id (st : CMState) (cid : String)
    (h : st.checkpoints.find? (fun m => m.id == cid) = none) :
    restoreCheckpoint st cid = (st, false) := by
  rw [restoreCheckpoint, h]

/-- Witness for C8 at a concrete state with no records. -/
theorem C8_restore_unknown_id_witness :
    restoreCheckpoint sampleCopyState "20990101_000000" = (sampleCopyState, false) :=
  C8_restore_unknown_id _ _ (by decide)

/-! ## Claim C9 -/

/-- C9: every task execution, on success and on failure alike, appends
exactly one entry to the session log, and a sequence of N executions
(any tasks, any options, any provider outcomes) grows the log by exactly
N entries. -/
theorem C9_session_log_count (provider : ProviderFun) (dOk sOk : Bool) :
    (∀ st task opts, ∃ e : SessionEntry,
      (executeTask provider dOk sOk st task opts).1.sessionLog = st.sessionLog ++ [e]) ∧
    (∀ jobs : List (String × Options), ∀ st : AgentState,
      (runTasks provider dOk sOk jobs st).sessionLog.length
        = st.sessionLog.length + jobs.length) := by
  constructor
  · intro st task opts
    exact executeTask_log provider dOk sOk st task opts
  · intro jobs
    induction jobs with
    | nil => intro st; simp [runTasks]
    | cons j rest ih =>
      intro st
      rw [runTasks, ih, executeTask_log_length]
      simp
      omega

/-! ## Claim C5 -/

/-- A provider that never raises runs through `executeTaskExn` exactly as
through `executeTask`: the exception-aware executor is the same program
restricted to the normal path. -/
theorem executeTaskExn_of_total (p : ProviderFun) (diffOk stashOk : Bool)
    (st : AgentState) (task : String) (opts : Options) :
    executeTaskExn (fun t c f => Except.ok (p t c f)) diffOk stashOk st task opts
      = Except.ok (executeTask p diffOk stashOk st task opts) := by
  simp only [executeTaskExn, executeTask]
  repeat' split
  all_goals rfl

/-- C5 counterexample: when the claude binary is absent, `subprocess.run`
raises FileNotFoundError; `ClaudeCodeProvider.execute_agent_task` has no
try/except around it (base.py line 55), so the exception escapes the
gateway — no `success=false` result is produced — and `execute_task`
aborts before `_log_session`: the state carried at the raise still has
the empty session log (the pre-task checkpoint was already taken). -/
theorem C5_counterexample_spawn_failure_escapes :
    executeAgentTaskClaude runClaudeAbsent "t" sampleCtx []
      = Except.error (PyExn.fileNotFoundError "claude") ∧
    executeTaskExn claudeAbsentProvider true true sampleAgentState "t" defaultOptions
      = Except.error (PyExn.fileNotFoundError "claude",
          { cm := { isGitRepo := false, gitHead := [],
                    worktree := [("a.txt", FsEntry.file "x")],
                    stashes := [],
                    checkpoints := [{ id := "cp0", description := "Before: t",
                                      modified_files := [], git_stash := none,
                                      backup_path := some "cp0" }],
                    backups := [("cp0", [("a.txt", FsEntry.file "x")])] },
            clock := 1, sessionLog := [] }) := by
  exact ⟨rfl, rfl⟩

/-- C5 as amended: a provider-level failure reported by a spawned
provider process (non-zero exit) is returned through the gateway as a
result with `success = false` and the error text captured in the
result's `error` field, and the executor then always reaches its logging
step.  But a failure to spawn the provider process at all
(FileNotFoundError when the claude CLI is absent) is not caught by
`ClaudeCodeProvider` — it escapes the gateway uncaught and aborts
`execute_task` before `_log_session`: no result is returned and no
session entry is appended (see the counterexample). -/
theorem C5_amended_provider_failure_semantics
    (runOk runErr : RunClaudeFn) (task : String) (ctx : TaskContext) (wt fs2 : FS)
    (rc : Int) (out err : String) (e : PyExn)
    (pexn : ProviderExnFun) (st : AgentState) (task2 : String) (opts : Options)
    (hok : runOk (buildClaudeCmd task ctx) wt = Except.ok (fs2, (rc, out, err)))
    (herr : runErr (buildClaudeCmd task ctx) wt = Except.error e)
    (hraise : ∀ c fs, pexn task2 c fs = Except.error e) :
    (executeAgentTaskClaude runOk task ctx wt
      = Except.ok (fs2, { success := rc == 0, output := out, error := err,
                          provider := "claude-code" })) ∧
    (rc ≠ 0 → ∃ pr : FS × ProviderResult,
      executeAgentTaskClaude runOk task ctx wt = Except.ok pr ∧
      pr.2.success = false ∧ pr.2.error = err) ∧
    (∀ (provider : ProviderFun) (dOk sOk : Bool) (s : AgentState) (t : String) (o : Options),
      Event.logged ∈ (executeTask provider dOk sOk s t o).2.2 ∧
      (executeTask provider dOk sOk s t o).1.sessionLog.length
        = s.sessionLog.length + 1) ∧
    (executeAgentTaskClaude runErr task ctx wt = Except.error e) ∧
    (∀ dOk sOk : Bool, ∃ sAbort : AgentState,
      executeTaskExn pexn dOk sOk st task2 opts = Except.error (e, sAbort) ∧
      sAbort.sessionLog = st.sessionLog) := by
  refine ⟨?_, ?_, ?_, ?_, ?_⟩
  · simp [executeAgentTaskClaude, hok]
  · intro hrc
    refine ⟨(fs2,
        { success := rc == 0, output := out, error := err,
          provider := "claude-code" }),
      by simp [executeAgentTaskClaude, hok], ?_, rfl⟩
    simp [beq_eq_false_iff_ne.mpr hrc]
  · intro provider dOk sOk s t o
    exact ⟨executeTask_logged_mem provider dOk sOk s t o,
      executeTask_log_length provider dOk sOk s t o⟩
  · simp [executeAgentTaskClaude, herr]
  · intro dOk sOk
    simp only [executeTaskExn, hraise]
    exact ⟨_, rfl, rfl⟩

/-- Witness for the amended C5: a spawned always-failing process, an
absent binary, and the gateway-built provider over the absent binary. -/
theorem C5_amended_provider_failure_semantics_witness :
    (runClaudeFail (buildClaudeCmd "t" sampleCtx) []
        = Except.ok ([], (1, "", "boom")) ∧
     runClaudeAbsent (buildClaudeCmd "t" sampleCtx) []
        = Except.error (PyExn.fileNotFoundError "claude") ∧
     (∀ c fs, claudeAbsentProvider "t2" c fs
        = Except.error (PyExn.fileNotFoundError "claude"))) ∧
    ((executeAgentTaskClaude runClaudeFail "t" sampleCtx []
      = Except.ok ([], { success := (1 : Int) == 0, output := "", error := "boom",
                         provider := "claude-code" })) ∧
    ((1 : Int) ≠ 0 → ∃ pr : FS × ProviderResult,
      executeAgentTaskClaude runClaudeFail "t" sampleCtx [] = Except.ok pr ∧
      pr.2.success = false ∧ pr.2.error = "boom") ∧
    (∀ (provider : ProviderFun) (dOk sOk : Bool) (s : AgentState) (t : String) (o : Options),
      Event.logged ∈ (executeTask provider dOk sOk s t o).2.2 ∧
      (executeTask provider dOk sOk s t o).1.sessionLog.length
        = s.sessionLog.length + 1) ∧
    (executeAgentTaskClaude runClaudeAbsent "t" sampleCtx []
      = Except.error (PyExn.fileNotFoundError "claude")) ∧
    (∀ dOk sOk : Bool, ∃ sAbort : AgentState,
      executeTaskExn claudeAbsentProvider dOk sOk sampleAgentState "t2" defaultOptions
        = Except.error (PyExn.fileNotFoundError "claude", sAbort) ∧
      sAbort.sessionLog = sampleAgentState.sessionLog)) :=
  ⟨⟨rfl, rfl, fun _ _ => rfl⟩,
    C5_amended_provider_failure_semantics runClaudeFail runClaudeAbsent "t" sampleCtx
      [] [] 1 "" "boom" (PyExn.fileNotFoundError "claude")
      claudeAbsentProvider sampleAgentState "t2" defaultOptions
      rfl rfl (fun _ _ => rfl)⟩

/-! ## Claim C10 -/

theorem gitDiffStdout_clean (head wt : FS) (h : gitDiffNames head wt = []) :
    gitDiffStdout head wt = "" := by
  rw [gitDiffStdout, h]

/-- C10: in a git-backed project whose modified-files status query
returns empty output (clean tree), the recorded `modified_files` is the
one-element list containing the empty string — not the empty list — so
`list_checkpoints` reports 1 modified file for that checkpoint. -/
theorem C10_clean_tree_reports_one (st : CMState) (nid desc : String) (stashOk : Bool)
    (hgit : st.isGitRepo = true)
    (hclean : gitDiffNames st.gitHead st.worktree = []) :
    ∃ m : CheckpointMeta,
      (createCheckpoint st nid desc true stashOk).1.checkpoints = st.checkpoints ++ [m] ∧
      m.modified_files = [""] ∧
      ∃ s ∈ listCheckpoints (createCheckpoint st nid desc true stashOk).1,
        s.id = nid ∧ s.modified_files = 1 := by
  have hout : pySplitNl (pyStrip (gitDiffStdout st.gitHead st.worktree)) = [""] := by
    rw [gitDiffStdout_clean _ _ hclean]
    decide
  refine ⟨{ id := nid, description := desc, modified_files := [""],
            git_stash := some (stashMsgFor nid), backup_path := none }, ?_, rfl, ?_⟩
  · simp only [createCheckpoint, hgit, if_true, hout, stashPushAll_checkpoints]
  · refine ⟨{ id := nid, timestamp := nid, description := desc, modified_files := 1 }, ?_, rfl, rfl⟩
    rw [listCheckpoints, mem_sortDesc]
    simp only [createCheckpoint, hgit, if_true, hout, stashPushAll_checkpoints]
    simp [summarize]

/-- Witness for C10 at a concrete clean git state. -/
theorem C10_clean_tree_reports_one_witness :
    (sampleGitCleanState.isGitRepo = true ∧
      gitDiffNames sampleGitCleanState.gitHead sampleGitCleanState.worktree = []) ∧
    (∃ m : CheckpointMeta,
      (createCheckpoint sampleGitCleanState "20250101_120000" "d" true true).1.checkpoints
        = sampleGitCleanState.checkpoints ++ [m] ∧
      m.modified_files = [""] ∧
      ∃ s ∈ listCheckpoints (createCheckpoint sampleGitCleanState "20250101_120000" "d" true true).1,
        s.id = "20250101_120000" ∧ s.modified_files = 1) :=
  ⟨⟨rfl, by decide⟩,
    C10_clean_tree_reports_one sampleGitCleanState "20250101_120000" "d" true rfl (by decide)⟩

/-! ## Claim C7 -/

/-- C7 counterexample: with changes to stash and a failing stash command
(non-zero exit, so no stash entry is created), `create_checkpoint` does
not fail: it still persists the metadata record and returns the new
checkpoint id, leaving a checkpoint whose stash reference does not
exist. -/
theorem C7_counterexample_create_ignores_stash_failure :
    fsBeq sampleGitDirtyState.worktree sampleGitDirtyState.gitHead = false ∧
    (createCheckpoint sampleGitDirtyState "20250101_120000" "d" true false).2
      = "20250101_120000" ∧
    (createCheckpoint sampleGitDirtyState "20250101_120000" "d" true false).1.checkpoints
      = [{ id := "20250101_120000", description := "d", modified_files := ["a.txt"],
           git_stash := some (stashMsgFor "20250101_120000"), backup_path := none }] ∧
    (createCheckpoint sampleGitDirtyState "20250101_120000" "d" true false).1.stashes = [] := by
  decide

/-- C7 as amended: in a git-backed project `create_checkpoint` never
fails and never checks the stash command's exit status: on every path it
persists exactly one metadata record carrying the stash label and
returns the new id.  The true half of the original claim stands: an
empty working tree ("nothing to stash") is not an error — it yields a
checkpoint with no stash entry and an untouched worktree. -/
theorem C7_amended_create_never_fails (st : CMState) (nid desc : String) (diffOk stashOk : Bool)
    (hgit : st.isGitRepo = true) :
    (createCheckpoint st nid desc diffOk stashOk).2 = nid ∧
    (∃ m : CheckpointMeta,
      (createCheckpoint st nid desc diffOk stashOk).1.checkpoints = st.checkpoints ++ [m] ∧
      m.id = nid ∧ m.git_stash = some (stashMsgFor nid)) ∧
    (fsBeq st.worktree st.gitHead = true →
      (createCheckpoint st nid desc diffOk stashOk).1.stashes = st.stashes ∧
      (createCheckpoint st nid desc diffOk stashOk).1.worktree = st.worktree) := by
  refine ⟨?_, ?_, ?_⟩
  · simp only [createCheckpoint, hgit, if_true]
  · by_cases hd : diffOk
    · refine ⟨{ id := nid, description := desc,
                modified_files := pySplitNl (pyStrip (gitDiffStdout st.gitHead st.worktree)),
                git_stash := some (stashMsgFor nid), backup_path := none }, ?_, rfl, rfl⟩
      simp [createCheckpoint, hgit, hd, stashPushAll_checkpoints]
    · refine ⟨{ id := nid, description := desc, modified_files := [],
                git_stash := some (stashMsgFor nid), backup_path := none }, ?_, rfl, rfl⟩
      simp [createCheckpoint, hgit, hd, stashPushAll_checkpoints]
  · intro hcl
    constructor
    · simp only [createCheckpoint, hgit, if_true, stashPushAll_clean _ _ _ hcl]
    · simp only [createCheckpoint, hgit, if_true, stashPushAll_clean _ _ _ hcl]

/-- Witness for the amended C7 at a concrete clean git state. -/
theorem C7_amended_create_never_fails_witness :
    sampleGitCleanState.isGitRepo = true ∧
    ((createCheckpoint sampleGitCleanState "20250102_000000" "d" true false).2 = "20250102_000000" ∧
    (∃ m : CheckpointMeta,
      (createCheckpoint sampleGitCleanState "20250102_000000" "d" true false).1.checkpoints
        = sampleGitCleanState.checkpoints ++ [m] ∧
      m.id = "20250102_000000" ∧ m.git_stash = some (stashMsgFor "20250102_000000")) ∧
    (fsBeq sampleGitCleanState.worktree sampleGitCleanState.gitHead = true →
      (createCheckpoint sampleGitCleanState "20250102_000000" "d" true false).1.stashes
        = sampleGitCleanState.stashes ∧
      (createCheckpoint sampleGitCleanState "20250102_000000" "d" true false).1.worktree
        = sampleGitCleanState.worktree)) :=
  ⟨rfl, C7_amended_create_never_fails sampleGitCleanState "20250102_000000" "d" true false rfl⟩

/-! ## Claim C4 -/

/-- C4 counterexample: with the stash entry gone (and likewise with the
backup directory gone), `restore_checkpoint` reports success (`True`)
and restores nothing — there is no `RestoreFailed`/`BackendRefMissing`
outcome in the code. -/
theorem C4_counterexample_restore_reports_success :
    (restoreCheckpoint sampleOrphanStashState "20250101_120000").2 = true ∧
    (restoreCheckpoint sampleOrphanStashState "20250101_120000").1.worktree
      = sampleOrphanStashState.worktree ∧
    restoreCheckpoint sampleOrphanBackupState "20250101_130000"
      = (sampleOrphanBackupState, true) := by
  decide

/-- C4 as amended: when the checkpoint's metadata records a stash backend
but zero stash entries match the stored label, `restore_checkpoint`
still returns success (`True`); nothing is popped, and the state is what
the unconditional temporary-stash step left (unchanged when there were no
tracked changes).  When a file-copy checkpoint's backup directory no
longer exists, it also returns success with the state untouched.  The
return type is a bare boolean: no `RestoreFailed` or `BackendRefMissing`
reason exists. -/
theorem C4_amended_missing_ref_reports_success
    (stA : CMState) (cidA label : String) (metaA : CheckpointMeta)
    (hfindA : stA.checkpoints.find? (fun m => m.id == cidA) = some metaA)
    (hlab : metaA.git_stash = some label)
    (hnomatch : ∀ e ∈ stA.stashes, pyContains e.1 label = false)
    (htemp : pyContains "Temp stash before restore" label = false)
    (stB : CMState) (cidB bid : String) (metaB : CheckpointMeta)
    (hfindB : stB.checkpoints.find? (fun m => m.id == cidB) = some metaB)
    (hgB : metaB.git_stash = none)
    (hbB : metaB.backup_path = some bid)
    (hmissB : stB.backups.find? (fun b => b.1 == bid) = none) :
    restoreCheckpoint stA cidA = (stashPushPlain stA "Temp stash before restore", true) ∧
    restoreCheckpoint stB cidB = (stB, true) := by
  constructor
  · have hall : ∀ e ∈ (stashPushPlain stA "Temp stash before restore").stashes,
        pyContains e.1 label = false := by
      by_cases ht : trackedChanged stA.gitHead stA.worktree
      · rw [stashPushPlain_active _ _ ht]
        intro e he
        rcases List.mem_cons.mp he with he | he
        · rw [he]
          exact htemp
        · exact hnomatch e he
      · rw [stashPushPlain_quiet _ _ (by simpa using ht)]
        exact hnomatch
    simp only [restoreCheckpoint, hfindA, hlab, firstMatchIdx_eq_none hall]
  · simp only [restoreCheckpoint, hfindB, hgB, hbB, hmissB]

/-- Witness for the amended C4 at the two concrete orphaned states. -/
theorem C4_amended_missing_ref_reports_success_witness :
    (sampleOrphanStashState.checkpoints.find? (fun m => m.id == "20250101_120000")
        = some { id := "20250101_120000", description := "d", modified_files := [],
                 git_stash := some (stashMsgFor "20250101_120000"), backup_path := none }) ∧
    (restoreCheckpoint sampleOrphanStashState "20250101_120000"
        = (stashPushPlain sampleOrphanStashState "Temp stash before restore", true) ∧
      restoreCheckpoint sampleOrphanBackupState "20250101_130000"
        = (sampleOrphanBackupState, true)) :=
  ⟨by decide,
    C4_amended_missing_ref_reports_success sampleOrphanStashState "20250101_120000"
      (stashMsgFor "20250101_120000")
      { id := "20250101_120000", description := "d", modified_files := [],
        git_stash := some (stashMsgFor "20250101_120000"), backup_path := none }
      (by decide) rfl (by decide) (by decide)
      sampleOrphanBackupState "20250101_130000" "20250101_130000"
      { id := "20250101_130000", description := "d", modified_files := [],
        git_stash := none, backup_path := some "20250101_130000" }
      (by decide) rfl rfl (by decide)⟩

theorem mem_fsKeys_of_ne_none {fs : FS} {m : String} (h : lookupFS fs m ≠ none) :
    m ∈ fsKeys fs := by
  by_contra hc
  exact h (lookupFS_eq_none_of_not_mem hc)

theorem trackedChanged_eq_false_iff (head wt : FS) :
    trackedChanged head wt = false ↔ ∀ n ∈ fsKeys head, lookupFS wt n = lookupFS head n := by
  rw [trackedChanged]
  rw [Bool.not_eq_false']
  rw [List.isEmpty_iff]
  exact gitDiffNames_eq_nil_iff head wt

theorem createCheckpoint_git (st : CMState) (nid desc : String) (diffOk stashOk : Bool)
    (hgit : st.isGitRepo = true) :
    ∃ m : CheckpointMeta,
      createCheckpoint st nid desc diffOk stashOk
        = ({ stashPushAll st (stashMsgFor nid) stashOk with
             checkpoints := (stashPushAll st (stashMsgFor nid) stashOk).checkpoints ++ [m] }, nid) ∧
      m.id = nid ∧ m.git_stash = some (stashMsgFor nid) := by
  by_cases hd : diffOk
  · refine ⟨{ id := nid, description := desc,
              modified_files := pySplitNl (pyStrip (gitDiffStdout st.gitHead st.worktree)),
              git_stash := some (stashMsgFor nid), backup_path := none }, ?_, rfl, rfl⟩
    simp [createCheckpoint, hgit, hd]
  · refine ⟨{ id := nid, description := desc, modified_files := [],
              git_stash := some (stashMsgFor nid), backup_path := none }, ?_, rfl, rfl⟩
    simp [createCheckpoint, hgit, hd]

theorem trackedChanged_self (head : FS) : trackedChanged head head = false := by
  rw [trackedChanged, gitDiffNames_self]
  rfl

theorem git_create_mutate_restore (st : CMState) (nid desc : String) (diffOk : Bool)
    (mutf : FS → FS)
    (hgit : st.isGitRepo = true)
    (hfreshCp : ∀ x ∈ st.checkpoints, x.id ≠ nid)
    (hfreshStash : ∀ e ∈ st.stashes, pyContains e.1 (stashMsgFor nid) = false) :
    (restoreCheckpoint (createThenMutate st nid desc diffOk mutf) nid).2 = true ∧
    (∀ n, lookupFS st.worktree n ≠ none →
      lookupFS (restoreCheckpoint (createThenMutate st nid desc diffOk mutf) nid).1.worktree n
        = lookupFS st.worktree n) ∧
    ((∀ fs, mutf fs = fs) →
      ∀ n, lookupFS (restoreCheckpoint (createThenMutate st nid desc diffOk mutf) nid).1.worktree n
        = lookupFS st.worktree n) := by
  obtain ⟨m, hm, hmid, hmgs⟩ := createCheckpoint_git st nid desc diffOk true hgit
  by_cases hcl : fsBeq st.worktree st.gitHead
  · -- clean tree: create stashed nothing
    have hWH : ∀ n, lookupFS st.worktree n = lookupFS st.gitHead n := (fsBeq_iff _ _).mp hcl
    have hst2 : createThenMutate st nid desc diffOk mutf
        = { st with checkpoints := st.checkpoints ++ [m], worktree := mutf st.worktree } := by
      simp only [createThenMutate, hm, stashPushAll_clean st _ true hcl]
    rw [hst2]
    have hfind : (st.checkpoints ++ [m]).find? (fun x => x.id == nid) = some m :=
      find?_meta_append_fresh _ _ _ hfreshCp hmid
    by_cases ht : trackedChanged st.gitHead (mutf st.worktree)
    · -- the temp stash fires, the (nonexistent) checkpoint stash is not found
      have hplain := stashPushPlain_active
        { st with checkpoints := st.checkpoints ++ [m], worktree := mutf st.worktree }
        "Temp stash before restore" ht
      have hnone : firstMatchIdx
          ((("Temp stash before restore",
              snapTracked st.gitHead (mutf st.worktree))) :: st.stashes) (stashMsgFor nid)
          = none := by
        apply firstMatchIdx_eq_none
        intro e he
        rcases List.mem_cons.mp he with he | he
        · rw [he]
          exact pyContains_temp_stashMsg nid
        · exact hfreshStash e he
      have hres : restoreCheckpoint
          { st with checkpoints := st.checkpoints ++ [m], worktree := mutf st.worktree } nid
          = ({ st with
                checkpoints := st.checkpoints ++ [m],
                stashes := ("Temp stash before restore",
                  snapTracked st.gitHead (mutf st.worktree)) :: st.stashes,
                worktree := resetTracked st.gitHead (mutf st.worktree) }, true) := by
        simp only [restoreCheckpoint, hfind, hmgs, hplain]
        simp only [hnone]
      rw [hres]
      refine ⟨rfl, ?_, ?_⟩
      · intro n hn
        simp only
        rw [lookup_resetTracked]
        have h1 : lookupFS st.gitHead n = lookupFS st.worktree n := (hWH n).symm
        rw [h1, if_pos (by simpa [Option.isSome_iff_ne_none] using hn)]
      · intro hmut
        exfalso
        rw [hmut st.worktree] at ht
        have : trackedChanged st.gitHead st.worktree = false := by
          rw [trackedChanged_eq_false_iff]
          intro n _
          exact hWH n
        rw [this] at ht
        exact Bool.false_ne_true ht
    · -- no temp stash; search finds nothing; state unchanged
      have hquiet := stashPushPlain_quiet
        { st with checkpoints := st.checkpoints ++ [m], worktree := mutf st.worktree }
        "Temp stash before restore" (by simpa using ht)
      have hnone : firstMatchIdx st.stashes (stashMsgFor nid) = none :=
        firstMatchIdx_eq_none hfreshStash
      have hres : restoreCheckpoint
          { st with checkpoints := st.checkpoints ++ [m], worktree := mutf st.worktree } nid
          = ({ st with checkpoints := st.checkpoints ++ [m], worktree := mutf st.worktree }, true) := by
        simp only [restoreCheckpoint, hfind, hmgs, hquiet]
        simp only [hnone]
      rw [hres]
      have hmc : ∀ n ∈ fsKeys st.gitHead,
          lookupFS (mutf st.worktree) n = lookupFS st.gitHead n :=
        (trackedChanged_eq_false_iff _ _).mp (by simpa using ht)
      refine ⟨rfl, ?_, ?_⟩
      · intro n hn
        simp only
        have h1 : lookupFS st.gitHead n ≠ none := by
          rw [← hWH n]; exact hn
        rw [hmc n (mem_fsKeys_of_ne_none h1), ← hWH n]
      · intro hmut
        intro n
        simp only [hmut st.worktree]
  · -- dirty tree: create stashed the worktree and reset it to HEAD
    have hpush := stashPushAll_dirty st (stashMsgFor nid) (by simpa using hcl)
    have hst2 : createThenMutate st nid desc diffOk mutf
        = { st with
            checkpoints := st.checkpoints ++ [m],
            stashes := (stashMsgFor nid, st.worktree) :: st.stashes,
            worktree := mutf st.gitHead } := by
      simp only [createThenMutate, hm, hpush]
    rw [hst2]
    have hfind : (st.checkpoints ++ [m]).find? (fun x => x.id == nid) = some m :=
      find?_meta_append_fresh _ _ _ hfreshCp hmid
    by_cases ht : trackedChanged st.gitHead (mutf st.gitHead)
    · -- temp stash fires; checkpoint stash found at index 1 and popped
      have hplain := stashPushPlain_active
        { st with
          checkpoints := st.checkpoints ++ [m],
          stashes := (stashMsgFor nid, st.worktree) :: st.stashes,
          worktree := mutf st.gitHead }
        "Temp stash before restore" ht
      have hidx : firstMatchIdx
          (("Temp stash before restore", snapTracked st.gitHead (mutf st.gitHead))
            :: (stashMsgFor nid, st.worktree) :: st.stashes) (stashMsgFor nid)
          = some 1 := by
        rw [firstMatchIdx]
        rw [if_neg (by simp [pyContains_temp_stashMsg nid])]
        rw [firstMatchIdx]
        rw [if_pos (by simp [pyContains_self])]
        rfl
      have hres : restoreCheckpoint
          { st with
            checkpoints := st.checkpoints ++ [m],
            stashes := (stashMsgFor nid, st.worktree) :: st.stashes,
            worktree := mutf st.gitHead } nid
          = ({ st with
                checkpoints := st.checkpoints ++ [m],
                stashes := ("Temp stash before restore",
                  snapTracked st.gitHead (mutf st.gitHead)) :: st.stashes,
                worktree := mergeFS st.gitHead st.worktree
                  (resetTracked st.gitHead (mutf st.gitHead)) }, true) := by
        simp only [restoreCheckpoint, hfind, hmgs, hplain]
        simp only [hidx]
        simp only [stashPop, List.get?, List.eraseIdx]
      rw [hres]
      refine ⟨rfl, ?_, ?_⟩
      · intro n hn
        simp only
        rw [lookup_mergeFS]
        by_cases he : lookupFS st.worktree n = lookupFS st.gitHead n
        · rw [if_pos he, lookup_resetTracked, ← he,
            if_pos (by simpa [Option.isSome_iff_ne_none] using hn)]
        · rw [if_neg he]
      · intro hmut
        exfalso
        rw [hmut st.gitHead, trackedChanged_self] at ht
        exact Bool.false_ne_true ht
    · -- no temp stash; checkpoint stash found at index 0 and popped
      have hquiet := stashPushPlain_quiet
        { st with
          checkpoints := st.checkpoints ++ [m],
          stashes := (stashMsgFor nid, st.worktree) :: st.stashes,
          worktree := mutf st.gitHead }
        "Temp stash before restore" (by simpa using ht)
      have hidx : firstMatchIdx
          ((stashMsgFor nid, st.worktree) :: st.stashes) (stashMsgFor nid) = some 0 := by
        rw [firstMatchIdx]
        rw [if_pos (by simp [pyContains_self])]
      have hres : restoreCheckpoint
          { st with
            checkpoints := st.checkpoints ++ [m],
            stashes := (stashMsgFor nid, st.worktree) :: st.stashes,
            worktree := mutf st.gitHead } nid
          = ({ st with
                checkpoints := st.checkpoints ++ [m],
                stashes := st.stashes,
                worktree := mergeFS st.gitHead st.worktree (mutf st.gitHead) }, true) := by
        simp only [restoreCheckpoint, hfind, hmgs, hquiet]
        simp only [hidx]
        simp only [stashPop, List.get?, List.eraseIdx]
      rw [hres]
      have hmc : ∀ n ∈ fsKeys st.gitHead,
          lookupFS (mutf st.gitHead) n = lookupFS st.gitHead n :=
        (trackedChanged_eq_false_iff _ _).mp (by simpa using ht)
      refine ⟨rfl, ?_, ?_⟩
      · intro n hn
        simp only
        rw [lookup_mergeFS]
        by_cases he : lookupFS st.worktree n = lookupFS st.gitHead n
        · rw [if_pos he]
          have h1 : lookupFS st.gitHead n ≠ none := by rw [← he]; exact hn
          rw [hmc n (mem_fsKeys_of_ne_none h1), ← he]
        · rw [if_neg he]
      · intro hmut n
        simp only
        rw [lookup_mergeFS]
        by_cases he : lookupFS st.worktree n = lookupFS st.gitHead n
        · rw [if_pos he, hmut st.gitHead, ← he]
        · rw [if_neg he]

theorem createCheckpoint_copy (st : CMState) (nid desc : String) (diffOk stashOk : Bool)
    (hgit : st.isGitRepo = false) :
    createCheckpoint st nid desc diffOk stashOk
      = ({ st with
            backups := (nid, backupProjectFiles st.worktree) :: st.backups,
            checkpoints := st.checkpoints ++
              [{ id := nid, description := desc, modified_files := [],
                 git_stash := none, backup_path := some nid }] }, nid) := by
  simp [createCheckpoint, hgit]

theorem createCheckpoint_id (st : CMState) (nid desc : String) (diffOk stashOk : Bool) :
    (createCheckpoint st nid desc diffOk stashOk).2 = nid := by
  by_cases hg : st.isGitRepo
  · obtain ⟨m, hm, _, _⟩ := createCheckpoint_git st nid desc diffOk stashOk hg
    rw [hm]
  · rw [createCheckpoint_copy st nid desc diffOk stashOk (by simpa using hg)]

theorem copy_create_mutate_restore (st : CMState) (nid desc : String) (diffOk : Bool)
    (mutf : FS → FS)
    (hgit : st.isGitRepo = false)
    (hfreshCp : ∀ x ∈ st.checkpoints, x.id ≠ nid)
    (hnd : (fsKeys st.worktree).Nodup) :
    (restoreCheckpoint (createThenMutate st nid desc diffOk mutf) nid).2 = true ∧
    (∀ n, n ∉ excludedNames → lookupFS st.worktree n ≠ none →
      lookupFS (restoreCheckpoint (createThenMutate st nid desc diffOk mutf) nid).1.worktree n
        = lookupFS st.worktree n) ∧
    ((∀ fs, mutf fs = fs) →
      ∀ n, lookupFS (restoreCheckpoint (createThenMutate st nid desc diffOk mutf) nid).1.worktree n
        = lookupFS st.worktree n) := by
  have hst2 : createThenMutate st nid desc diffOk mutf
      = { st with
          backups := (nid, backupProjectFiles st.worktree) :: st.backups,
          checkpoints := st.checkpoints ++
            [{ id := nid, description := desc, modified_files := [],
               git_stash := none, backup_path := some nid }],
          worktree := mutf st.worktree } := by
    simp only [createThenMutate, createCheckpoint_copy st nid desc diffOk true hgit]
  rw [hst2]
  have hfind : (st.checkpoints ++
      [({ id := nid, description := desc, modified_files := [],
          git_stash := none, backup_path := some nid } : CheckpointMeta)]).find?
        (fun x => x.id == nid)
      = some { id := nid, description := desc, modified_files := [],
               git_stash := none, backup_path := some nid } :=
    find?_meta_append_fresh _ _ _ hfreshCp rfl
  have hbk : (((nid, backupProjectFiles st.worktree)) :: st.backups).find?
      (fun b => b.1 == nid) = some (nid, backupProjectFiles st.worktree) := by
    simp [List.find?]
  have hres : restoreCheckpoint
      { st with
        backups := (nid, backupProjectFiles st.worktree) :: st.backups,
        checkpoints := st.checkpoints ++
          [{ id := nid, description := desc, modified_files := [],
             git_stash := none, backup_path := some nid }],
        worktree := mutf st.worktree } nid
      = ({ st with
            backups := (nid, backupProjectFiles st.worktree) :: st.backups,
            checkpoints := st.checkpoints ++
              [{ id := nid, description := desc, modified_files := [],
                 git_stash := none, backup_path := some nid }],
            worktree := restoreProjectFiles (backupProjectFiles st.worktree)
              (mutf st.worktree) }, true) := by
    simp only [restoreCheckpoint, hfind, hbk]
  rw [hres]
  refine ⟨rfl, ?_, ?_⟩
  · intro n hex hn
    simp only
    have hb : lookupFS (backupProjectFiles st.worktree) n = lookupFS st.worktree n := by
      rw [lookup_backupPF, if_neg (by simpa using hex)]
    cases he : lookupFS st.worktree n with
    | none => exact absurd he hn
    | some e =>
      rw [lookup_restorePF_mem _ _ e (fsKeys_backupPF_nodup _ hnd) (by rw [hb, he]) _]
  · intro hmut n
    simp only [hmut st.worktree]
    exact lookup_restorePF_self st.worktree hnd n

/-! ## Claim C1 -/

/-- C1 counterexample: with the file-copy backend, a file added after
checkpoint creation survives `restore_checkpoint`: the restored tree is
not byte-for-byte equal to the pre-checkpoint content (the added file is
not removed), although restore reports success. -/
theorem C1_counterexample_added_file_survives :
    (restoreCheckpoint sampleCopyAfterAdd "20250101_120000").2 = true ∧
    lookupFS (restoreCheckpoint sampleCopyAfterAdd "20250101_120000").1.worktree "b.txt"
      = some (FsEntry.file "y") ∧
    lookupFS sampleCopyState.worktree "b.txt" = none := by
  decide

/-- C1 as amended: calling `restore_checkpoint` with the id returned by
`create_checkpoint`, with no intervening modification of the project
tree, reproduces the pre-checkpoint file content byte-for-byte (name by
name), for both the git-stash backend and the file-copy backend — given
a fresh checkpoint id and, for git, no pre-existing stash entry matching
the new label.  The original claim's parenthetical is dropped: files
added after the checkpoint are not removed by restore (see the
counterexample). -/
theorem C1_amended_roundtrip (st : CMState) (nid desc : String) (diffOk : Bool)
    (hfreshCp : ∀ x ∈ st.checkpoints, x.id ≠ nid)
    (hfreshStash : ∀ e ∈ st.stashes, pyContains e.1 (stashMsgFor nid) = false)
    (hnd : st.isGitRepo = false → (fsKeys st.worktree).Nodup) :
    (restoreCheckpoint (createCheckpoint st nid desc diffOk true).1
        (createCheckpoint st nid desc diffOk true).2).2 = true ∧
    ∀ n, lookupFS (restoreCheckpoint (createCheckpoint st nid desc diffOk true).1
        (createCheckpoint st nid desc diffOk true).2).1.worktree n
      = lookupFS st.worktree n := by
  rw [createCheckpoint_id]
  have hsame : (createCheckpoint st nid desc diffOk true).1
      = createThenMutate st nid desc diffOk (fun fs => fs) := rfl
  rw [hsame]
  by_cases hg : st.isGitRepo
  · obtain ⟨h1, _, h3⟩ :=
      git_create_mutate_restore st nid desc diffOk (fun fs => fs) hg hfreshCp hfreshStash
    exact ⟨h1, h3 (fun _ => rfl)⟩
  · obtain ⟨h1, _, h3⟩ :=
      copy_create_mutate_restore st nid desc diffOk (fun fs => fs)
        (by simpa using hg) hfreshCp (hnd (by simpa using hg))
    exact ⟨h1, h3 (fun _ => rfl)⟩

/-- Witness for the amended C1 at a concrete dirty git state. -/
theorem C1_amended_roundtrip_witness :
    ((∀ x ∈ sampleGitDirtyState.checkpoints, x.id ≠ "20250101_120000") ∧
     (∀ e ∈ sampleGitDirtyState.stashes,
        pyContains e.1 (stashMsgFor "20250101_120000") = false) ∧
     (sampleGitDirtyState.isGitRepo = false → (fsKeys sampleGitDirtyState.worktree).Nodup)) ∧
    ((restoreCheckpoint (createCheckpoint sampleGitDirtyState "20250101_120000" "d" true true).1
        (createCheckpoint sampleGitDirtyState "20250101_120000" "d" true true).2).2 = true ∧
     ∀ n, lookupFS
        (restoreCheckpoint (createCheckpoint sampleGitDirtyState "20250101_120000" "d" true true).1
          (createCheckpoint sampleGitDirtyState "20250101_120000" "d" true true).2).1.worktree n
       = lookupFS sampleGitDirtyState.worktree n) :=
  ⟨⟨by decide, by decide, by decide⟩,
    C1_amended_roundtrip sampleGitDirtyState "20250101_120000" "d" true
      (by decide) (by decide) (by decide)⟩

/-! ## Claim C2 -/

/-- C2 counterexample: with `checkpointBefore` and `autoRestoreOnFailure`
enabled and a provider that always fails, restore is invoked with the
preceding checkpoint id, but the project is NOT left in the exact state
captured by the pre-task checkpoint: a file the provider added survives
the restore. -/
theorem C2_counterexample_added_file_survives_restore :
    (executeTask addingFailProvider true true sampleAgentState "t" optsAutoRestore).2.1.success
      = false ∧
    (executeTask addingFailProvider true true sampleAgentState "t" optsAutoRestore).2.2
      = [Event.checkpointCreated "cp0", Event.providerInvoked false, Event.logged,
         Event.restoreInvoked "cp0"] ∧
    lookupFS (executeTask addingFailProvider true true sampleAgentState "t"
        optsAutoRestore).1.cm.worktree "b.txt" = some (FsEntry.file "y") ∧
    lookupFS sampleAgentState.cm.worktree "b.txt" = none := by
  decide

/-- C2 as amended: with `checkpointBefore=true` and
`autoRestoreOnFailure=true` against a provider that always fails,
`restore` is invoked with the preceding checkpoint id before the failure
result is returned (the trace is exactly checkpoint, provider, log,
restore), and every non-excluded top-level path present at checkpoint
time is restored to its checkpoint content — but paths added after the
checkpoint may survive, so the resulting state can strictly extend the
captured one (see the counterexample). -/
theorem C2_amended_auto_restore (provider : ProviderFun) (st : AgentState) (task : String)
    (opts : Options)
    (hcp : opts.checkpoint = true)
    (har : opts.auto_restore_on_failure = true)
    (hfail : ∀ ctx fs, (provider task ctx fs).2.success = false)
    (hfreshCp : ∀ x ∈ st.cm.checkpoints, x.id ≠ clockId st.clock)
    (hfreshStash : ∀ e ∈ st.cm.stashes,
      pyContains e.1 (stashMsgFor (clockId st.clock)) = false)
    (hnd : st.cm.isGitRepo = false → (fsKeys st.cm.worktree).Nodup) :
    (executeTask provider true true st task opts).2.1.success = false ∧
    (executeTask provider true true st task opts).2.2
      = [Event.checkpointCreated (clockId st.clock),
         Event.providerInvoked opts.continue_session, Event.logged,
         Event.restoreInvoked (clockId st.clock)] ∧
    (∀ n, n ∉ excludedNames → lookupFS st.cm.worktree n ≠ none →
      lookupFS (executeTask provider true true st task opts).1.cm.worktree n
        = lookupFS st.cm.worktree n) := by
  have hrun : executeTask provider true true st task opts
      = ({ cm := (restoreCheckpoint
              (createThenMutate st.cm (clockId st.clock) ("Before: " ++ pyTake task 50) true
                (fun fs => (provider task
                  { task := task, checkpoint_id := some (clockId st.clock),
                    auto_accept := opts.auto_accept,
                    continue_session := opts.continue_session } fs).1))
              (clockId st.clock)).1,
            clock := st.clock + 1,
            sessionLog := st.sessionLog ++
              [{ task := task,
                 provider := (provider task
                   { task := task, checkpoint_id := some (clockId st.clock),
                     auto_accept := opts.auto_accept,
                     continue_session := opts.continue_session }
                   (createCheckpoint st.cm (clockId st.clock)
                     ("Before: " ++ pyTake task 50) true true).1.worktree).2.provider,
                 success := false,
                 checkpoint_id := some (clockId st.clock),
                 output_length := (provider task
                   { task := task, checkpoint_id := some (clockId st.clock),
                     auto_accept := opts.auto_accept,
                     continue_session := opts.continue_session }
                   (createCheckpoint st.cm (clockId st.clock)
                     ("Before: " ++ pyTake task 50) true true).1.worktree).2.output.length }] },
         (provider task
           { task := task, checkpoint_id := some (clockId st.clock),
             auto_accept := opts.auto_accept,
             continue_session := opts.continue_session }
           (createCheckpoint st.cm (clockId st.clock)
             ("Before: " ++ pyTake task 50) true true).1.worktree).2,
         [Event.checkpointCreated (clockId st.clock),
          Event.providerInvoked opts.continue_session, Event.logged,
          Event.restoreInvoked (clockId st.clock)]) := by
    simp only [executeTask, hcp, if_true, createCheckpoint_id, hfail, Bool.false_eq_true,
      if_false, har, createThenMutate]
    rfl
  rw [hrun]
  refine ⟨hfail _ _, rfl, ?_⟩
  intro n hex hn
  by_cases hg : st.cm.isGitRepo
  · obtain ⟨_, h2, _⟩ := git_create_mutate_restore st.cm (clockId st.clock)
      ("Before: " ++ pyTake task 50) true
      (fun fs => (provider task
        { task := task, checkpoint_id := some (clockId st.clock),
          auto_accept := opts.auto_accept,
          continue_session := opts.continue_session } fs).1) hg hfreshCp hfreshStash
    exact h2 n hn
  · obtain ⟨_, h2, _⟩ := copy_create_mutate_restore st.cm (clockId st.clock)
      ("Before: " ++ pyTake task 50) true
      (fun fs => (provider task
        { task := task, checkpoint_id := some (clockId st.clock),
          auto_accept := opts.auto_accept,
          continue_session := opts.continue_session } fs).1)
      (by simpa using hg) hfreshCp (hnd (by simpa using hg))
    exact h2 n hex hn

/-- Witness for the amended C2 at the concrete failing, file-adding
provider over the sample non-git project. -/
theorem C2_amended_auto_restore_witness :
    (optsAutoRestore.checkpoint = true ∧
     optsAutoRestore.auto_restore_on_failure = true ∧
     (∀ ctx fs, (addingFailProvider "t" ctx fs).2.success = false) ∧
     (∀ x ∈ sampleAgentState.cm.checkpoints, x.id ≠ clockId sampleAgentState.clock) ∧
     (∀ e ∈ sampleAgentState.cm.stashes,
        pyContains e.1 (stashMsgFor (clockId sampleAgentState.clock)) = false) ∧
     (sampleAgentState.cm.isGitRepo = false → (fsKeys sampleAgentState.cm.worktree).Nodup)) ∧
    ((executeTask addingFailProvider true true sampleAgentState "t" optsAutoRestore).2.1.success
        = false ∧
     (executeTask addingFailProvider true true sampleAgentState "t" optsAutoRestore).2.2
        = [Event.checkpointCreated (clockId sampleAgentState.clock),
           Event.providerInvoked optsAutoRestore.continue_session, Event.logged,
           Event.restoreInvoked (clockId sampleAgentState.clock)] ∧
     (∀ n, n ∉ excludedNames → lookupFS sampleAgentState.cm.worktree n ≠ none →
        lookupFS (executeTask addingFailProvider true true sampleAgentState "t"
            optsAutoRestore).1.cm.worktree n
          = lookupFS sampleAgentState.cm.worktree n)) :=
  ⟨⟨rfl, rfl, fun _ _ => rfl, by decide, by decide, by decide⟩,
    C2_amended_auto_restore addingFailProvider sampleAgentState "t" optsAutoRestore
      rfl rfl (fun _ _ => rfl) (by decide) (by decide) (by decide)⟩

/-! ## Batch execution lemmas -/

theorem executeTask_success_of (provider : ProviderFun) (dOk sOk : Bool) (st : AgentState)
    (task : String) (opts : Options) (b : Bool)
    (h : ∀ ctx fs, (provider task ctx fs).2.success = b) :
    (executeTask provider dOk sOk st task opts).2.1.success = b := by
  obtain ⟨ctx, wt, hr⟩ := executeTask_result provider dOk sOk st task opts
  rw [hr, h]

theorem provFlags_append (a b : List Event) :
    provFlags (a ++ b) = provFlags a ++ provFlags b := by
  simp [provFlags]

theorem provFlags_singleton_cp_append (x : String) (l : List Event) :
    provFlags ([Event.checkpointCreated x] ++ l) = provFlags l := by
  simp [provFlags]

theorem provFlags_cp_cons (x : String) (l : List Event) :
    provFlags (Event.checkpointCreated x :: l) = provFlags l := by
  simp [provFlags]

theorem batchLoop_tail_events (provider : ProviderFun) (dOk sOk : Bool) (opts : Options)
    (hca : opts.checkpoint_after = false) :
    ∀ (tasks : List String) (i : Nat), 0 < i → ∀ st : AgentState,
      ((batchLoop provider dOk sOk opts tasks i st).2.2.countP isCpCreated = 0) ∧
      (∀ b ∈ provFlags (batchLoop provider dOk sOk opts tasks i st).2.2, b = true) := by
  intro tasks
  induction tasks with
  | nil =>
    intro i hi st
    simp [batchLoop, provFlags]
  | cons t rest ih =>
    intro i hi st
    have hcp0 : ({ opts with continue_session := true, checkpoint := false } : Options).checkpoint_after = false := hca
    have hcnt := executeTask_cpCount provider dOk sOk st t
      { opts with continue_session := true, checkpoint := false } hcp0
    have hflags := executeTask_provFlags provider dOk sOk st t
      { opts with continue_session := true, checkpoint := false }
    simp only [show ({ opts with continue_session := true, checkpoint := false } : Options).checkpoint = false from rfl,
      Bool.false_eq_true, if_false] at hcnt
    simp only [show ({ opts with continue_session := true, checkpoint := false } : Options).continue_session = true from rfl] at hflags
    simp only [batchLoop, if_pos hi]
    split
    · constructor
      · simpa using hcnt
      · intro b hb
        rw [hflags] at hb
        simpa using hb
    · obtain ⟨ih1, ih2⟩ := ih (i + 1) (Nat.succ_pos i)
        (executeTask provider dOk sOk st t
          { opts with continue_session := true, checkpoint := false }).1
      constructor
      · simp only [List.countP_append, hcnt, ih1]
      · intro b hb
        simp only [provFlags, List.filterMap_append] at hb
        rcases List.mem_append.mp hb with hb | hb
        · have hmem : b ∈ provFlags (executeTask provider dOk sOk st t
              { opts with continue_session := true, checkpoint := false }).2.2 := hb
          rw [hflags] at hmem
          simpa using hmem
        · exact ih2 b hb

theorem batchLoop_stop_invariant (provider : ProviderFun) (dOk sOk : Bool) (opts : Options)
    (hc : opts.continue_on_failure = false) :
    ∀ (tasks : List String) (i : Nat) (st : AgentState),
      ((batchLoop provider dOk sOk opts tasks i st).2.1.length ≤ tasks.length) ∧
      ((batchLoop provider dOk sOk opts tasks i st).2.1.length < tasks.length →
        ((batchLoop provider dOk sOk opts tasks i st).2.1.getLast?).map (fun x => x.success)
          = some false) ∧
      (∀ j, j + 1 < (batchLoop provider dOk sOk opts tasks i st).2.1.length →
        ((batchLoop provider dOk sOk opts tasks i st).2.1.get? j).map (fun x => x.success)
          = some true) ∧
      ((batchLoop provider dOk sOk opts tasks i st).2.1 = [] ↔ tasks = []) := by
  intro tasks
  induction tasks with
  | nil =>
    intro i st
    simp [batchLoop]
  | cons t rest ih =>
    intro i st
    simp only [batchLoop]
    generalize (if i > 0 then { opts with continue_session := true, checkpoint := false }
      else opts) = o
    split
    · rename_i hstop
      have hfail : (executeTask provider dOk sOk st t o).2.1.success = false := by
        by_contra hb
        rw [Bool.not_eq_false] at hb
        simp [hb] at hstop
      refine ⟨by simp, ?_, ?_, ?_⟩
      · intro _
        simp [List.getLast?, hfail]
      · intro j hj
        simp at hj
      · simp
    · rename_i hgo
      obtain ⟨ih1, ih2, ih3, ih4⟩ := ih (i + 1) (executeTask provider dOk sOk st t o).1
      have hsucc : (executeTask provider dOk sOk st t o).2.1.success = true := by
        by_contra hb
        rw [Bool.not_eq_true] at hb
        simp [hb, hc] at hgo
      refine ⟨?_, ?_, ?_, ?_⟩
      · simp only [List.length_cons]
        omega
      · intro hlt
        simp only [List.length_cons] at hlt
        have hlt2 : (batchLoop provider dOk sOk opts rest (i + 1)
            (executeTask provider dOk sOk st t o).1).2.1.length < rest.length := by
          have := ih1
          omega
        have hne : (batchLoop provider dOk sOk opts rest (i + 1)
            (executeTask provider dOk sOk st t o).1).2.1 ≠ [] := by
          intro hnil
          rw [ih4] at hnil
          rw [hnil] at hlt2
          simp at hlt2
        obtain ⟨x, xs, hxs⟩ := List.exists_cons_of_ne_nil hne
        simp only [hxs, List.getLast?_cons_cons]
        have hg := ih2 hlt2
        rw [hxs] at hg
        simpa using hg
      · intro j hj
        cases j with
        | zero =>
          simp [hsucc]
        | succ k =>
          simp only [List.length_cons] at hj
          have hk := ih3 k (by omega)
          simpa using hk
      · simp

/-! ## Claim C3 -/

/-- C3 counterexample: a batch of one task with checkpointing enabled
creates TWO checkpoints before the task's provider runs — the leading
"Batch start" one AND the first task's own per-task checkpoint, because
`batch_execute` only forces `checkpoint=False` from the second task
onward. -/
theorem C3_counterexample_first_task_checkpoints :
    (batchExecute okProvider true true sampleAgentState ["t"] defaultOptions).2.2
      = [Event.checkpointCreated "cp0", Event.checkpointCreated "cp1",
         Event.providerInvoked false, Event.logged] ∧
    ((batchExecute okProvider true true sampleAgentState ["t"] defaultOptions).2.2.countP
        isCpCreated = 2) := by
  decide

/-- C3 as amended: a batch with checkpointing enabled (and no post-task
checkpoints) creates exactly TWO checkpoints — the single leading batch
checkpoint plus the first task's own per-task checkpoint, whose options
are not overridden — and no checkpoint for any later task; the first
provider call carries the caller's `continue_session` flag and every
later one is forced to `continue_session=true`. -/
theorem C3_amended_batch_checkpoints (provider : ProviderFun) (dOk sOk : Bool)
    (st : AgentState) (t : String) (rest : List String) (opts : Options)
    (hcp : opts.checkpoint = true) (hca : opts.checkpoint_after = false) :
    ((batchExecute provider dOk sOk st (t :: rest) opts).2.2.countP isCpCreated = 2) ∧
    ((provFlags (batchExecute provider dOk sOk st (t :: rest) opts).2.2).head?
       = some opts.continue_session) ∧
    (∀ b ∈ (provFlags (batchExecute provider dOk sOk st (t :: rest) opts).2.2).tail,
      b = true) := by
  have hloop : ∀ st0 : AgentState,
      ((batchLoop provider dOk sOk opts (t :: rest) 0 st0).2.2.countP isCpCreated = 1) ∧
      (∃ tl : List Bool,
        provFlags (batchLoop provider dOk sOk opts (t :: rest) 0 st0).2.2
          = opts.continue_session :: tl ∧ ∀ b ∈ tl, b = true) := by
    intro st0
    have hcnt := executeTask_cpCount provider dOk sOk st0 t opts hca
    rw [hcp, if_pos rfl] at hcnt
    have hflags := executeTask_provFlags provider dOk sOk st0 t opts
    simp only [batchLoop, Nat.lt_irrefl, if_false]
    split
    · exact ⟨by simpa using hcnt, [], by simpa using hflags, by simp⟩
    · obtain ⟨htl1, htl2⟩ := batchLoop_tail_events provider dOk sOk opts hca rest 1
        (Nat.succ_pos 0) (executeTask provider dOk sOk st0 t opts).1
      constructor
      · simp only [List.countP_append, hcnt, htl1]
      · refine ⟨provFlags (batchLoop provider dOk sOk opts rest 1
          (executeTask provider dOk sOk st0 t opts).1).2.2, ?_, htl2⟩
        simp only [provFlags, List.filterMap_append] at hflags ⊢
        rw [hflags]
        rfl
  simp only [batchExecute, hcp, if_true]
  obtain ⟨hl1, tl, hl2, hl3⟩ := hloop
    { st with
      cm := (createCheckpoint st.cm (clockId st.clock) "Batch start" dOk sOk).1,
      clock := st.clock + 1 }
  refine ⟨?_, ?_, ?_⟩
  · simp only [List.countP_append, hl1]
    simp [isCpCreated]
  · rw [provFlags_singleton_cp_append, hl2]
    rfl
  · intro b hb
    rw [provFlags_singleton_cp_append, hl2] at hb
    exact hl3 b hb

/-- Witness for the amended C3 (one task, default options, succeeding
provider). -/
theorem C3_amended_batch_checkpoints_witness :
    (defaultOptions.checkpoint = true ∧ defaultOptions.checkpoint_after = false) ∧
    (((batchExecute okProvider true true sampleAgentState ["t"] defaultOptions).2.2.countP
        isCpCreated = 2) ∧
     ((provFlags (batchExecute okProvider true true sampleAgentState ["t"]
        defaultOptions).2.2).head? = some defaultOptions.continue_session) ∧
     (∀ b ∈ (provFlags (batchExecute okProvider true true sampleAgentState ["t"]
        defaultOptions).2.2).tail, b = true)) :=
  ⟨⟨rfl, rfl⟩,
    C3_amended_batch_checkpoints okProvider true true sampleAgentState "t" [] defaultOptions
      rfl rfl⟩

/-! ## Claim C6 -/

/-- C6: in a batch of 3 tasks where task 2's provider always fails (and
task 1's always succeeds): with `continueOnFailure=false` the batch
returns exactly 2 results (successes `[true, false]`) and performs only
2 provider invocations — task 3's provider is never invoked; with
`continueOnFailure=true` it returns 3 results with
`result[1].success = false` and results 0 and 2 reflecting their own
provider outcomes.  In general, with `continueOnFailure=false` the
result sequence is at most as long as the task list, every result before
the last succeeded, and on early stop the last returned result is the
failed one. -/
theorem C6_batch_failure_semantics (provider : ProviderFun) (dOk sOk : Bool)
    (st : AgentState) (t1 t2 t3 : String) (opts : Options) (b3 : Bool)
    (h1 : ∀ ctx fs, (provider t1 ctx fs).2.success = true)
    (h2 : ∀ ctx fs, (provider t2 ctx fs).2.success = false)
    (h3 : ∀ ctx fs, (provider t3 ctx fs).2.success = b3) :
    ((batchExecute provider dOk sOk st [t1, t2, t3]
        { opts with continue_on_failure := false }).2.1.map (fun x => x.success)
      = [true, false]) ∧
    ((provFlags (batchExecute provider dOk sOk st [t1, t2, t3]
        { opts with continue_on_failure := false }).2.2).length = 2) ∧
    ((batchExecute provider dOk sOk st [t1, t2, t3]
        { opts with continue_on_failure := true }).2.1.map (fun x => x.success)
      = [true, false, b3]) ∧
    (∀ (tasks : List String) (st2 : AgentState),
      ((batchExecute provider dOk sOk st2 tasks
          { opts with continue_on_failure := false }).2.1.length ≤ tasks.length) ∧
      ((batchExecute provider dOk sOk st2 tasks
          { opts with continue_on_failure := false }).2.1.length < tasks.length →
        ((batchExecute provider dOk sOk st2 tasks
          { opts with continue_on_failure := false }).2.1.getLast?).map (fun x => x.success)
          = some false) ∧
      (∀ j, j + 1 < (batchExecute provider dOk sOk st2 tasks
          { opts with continue_on_failure := false }).2.1.length →
        ((batchExecute provider dOk sOk st2 tasks
          { opts with continue_on_failure := false }).2.1.get? j).map (fun x => x.success)
          = some true)) := by
  have e1 : ∀ (o : Options) (s : AgentState),
      (executeTask provider dOk sOk s t1 o).2.1.success = true :=
    fun o s => executeTask_success_of provider dOk sOk s t1 o true h1
  have e2 : ∀ (o : Options) (s : AgentState),
      (executeTask provider dOk sOk s t2 o).2.1.success = false :=
    fun o s => executeTask_success_of provider dOk sOk s t2 o false h2
  have e3 : ∀ (o : Options) (s : AgentState),
      (executeTask provider dOk sOk s t3 o).2.1.success = b3 :=
    fun o s => executeTask_success_of provider dOk sOk s t3 o b3 h3
  have hp : ∀ (o : Options) (s : AgentState) (t : String),
      (provFlags (executeTask provider dOk sOk s t o).2.2).length = 1 := by
    intro o s t
    rw [executeTask_provFlags]
    rfl
  have hcA : ({ opts with continue_on_failure := false } : Options).continue_on_failure
      = false := rfl
  have hcB : ({ opts with continue_on_failure := true } : Options).continue_on_failure
      = true := rfl
  refine ⟨?_, ?_, ?_, ?_⟩
  · simp only [batchExecute, batchLoop]
    split
    all_goals simp [e1, e2, hcA]
  · simp only [batchExecute, batchLoop]
    split
    all_goals simp [e1, e2, hcA, provFlags_append, provFlags_cp_cons, hp]
  · simp only [batchExecute, batchLoop]
    split
    all_goals simp [e1, e2, e3, hcB]
  · intro tasks st2
    have hwrap : ∃ st0 : AgentState,
        (batchExecute provider dOk sOk st2 tasks { opts with continue_on_failure := false }).2.1
          = (batchLoop provider dOk sOk { opts with continue_on_failure := false }
              tasks 0 st0).2.1 := by
      simp only [batchExecute]
      split
      · exact ⟨_, rfl⟩
      · exact ⟨_, rfl⟩
    obtain ⟨st0, hw⟩ := hwrap
    rw [hw]
    obtain ⟨q1, q2, q3, _⟩ := batchLoop_stop_invariant provider dOk sOk
      { opts with continue_on_failure := false } hcA tasks 0 st0
    exact ⟨q1, q2, q3⟩

/-- Witness for C6 at a concrete scripted provider ("fail-task" fails,
everything else succeeds). -/
theorem C6_batch_failure_semantics_witness :
    ((∀ ctx fs, (scriptedProvider "a" ctx fs).2.success = true) ∧
     (∀ ctx fs, (scriptedProvider "fail-task" ctx fs).2.success = false) ∧
     (∀ ctx fs, (scriptedProvider "c" ctx fs).2.success = true)) ∧
    (((batchExecute scriptedProvider true true sampleAgentState ["a", "fail-task", "c"]
        { defaultOptions with continue_on_failure := false }).2.1.map (fun x => x.success)
      = [true, false]) ∧
    ((provFlags (batchExecute scriptedProvider true true sampleAgentState ["a", "fail-task", "c"]
        { defaultOptions with continue_on_failure := false }).2.2).length = 2) ∧
    ((batchExecute scriptedProvider true true sampleAgentState ["a", "fail-task", "c"]
        { defaultOptions with continue_on_failure := true }).2.1.map (fun x => x.success)
      = [true, false, true]) ∧
    (∀ (tasks : List String) (st2 : AgentState),
      ((batchExecute scriptedProvider true true st2 tasks
          { defaultOptions with continue_on_failure := false }).2.1.length ≤ tasks.length) ∧
      ((batchExecute scriptedProvider true true st2 tasks
          { defaultOptions with continue_on_failure := false }).2.1.length < tasks.length →
        ((batchExecute scriptedProvider true true st2 tasks
          { defaultOptions with continue_on_failure := false }).2.1.getLast?).map
            (fun x => x.success) = some false) ∧
      (∀ j, j + 1 < (batchExecute scriptedProvider true true st2 tasks
          { defaultOptions with continue_on_failure := false }).2.1.length →
        ((batchExecute scriptedProvider true true st2 tasks
          { defaultOptions with continue_on_failure := false }).2.1.get? j).map
            (fun x => x.success) = some true))) :=
  ⟨⟨fun _ _ => rfl, fun _ _ => rfl, fun _ _ => rfl⟩,
    C6_batch_failure_semantics scriptedProvider true true sampleAgentState
      "a" "fail-task" "c" defaultOptions true
      (fun _ _ => rfl) (fun _ _ => rfl) (fun _ _ => rfl)⟩
